import Mathlib

/-!
Verification of the Discord countdown bot (src/bot.js).

The JavaScript source is shallowly embedded below.  JavaScript numbers that
the program only ever uses as integral epoch-millisecond timestamps or list
indices are modelled as `Int`/`Nat` (the program never leaves the exactly
representable range, and `Math.floor` of a nonnegative real division by a
constant equals natural-number division there).  The Discord collaborator
(message sending, editing, reactions, presence) is modelled by explicit
effect records and by boolean oracles telling whether a remote call
succeeds, exactly as the spec treats the chat platform as an external
collaborator.  The process local timezone is taken as UTC (offset 0); no
claim under verification depends on the offset.
-/
/-! ## Duration calculator (src/bot.js lines 56-66, `getTimeRemaining`) -/
/-- Result shape of `getTimeRemaining`:
`{ expired, total, days, hours, minutes, seconds }`. -/
structure TimeRemaining where
  expired : Bool
  total : Int
  days : Nat
  hours : Nat
  minutes : Nat
  seconds : Nat
deriving Repr, DecidableEq

/-- `getTimeRemaining(targetDate)` from src/bot.js.  The source reads
`Date.now()` internally; it is passed here as the explicit argument `now`.
`Math.floor((total/1000) % 60)` etc. on a positive integral millisecond
count equal the natural-number divisions and remainders written here. -/
def getTimeRemaining (targetDate : Int) (now : Int) : TimeRemaining :=
  let total : Int := targetDate - now
  if total ≤ 0 then
    { expired := true, total := 0, days := 0, hours := 0, minutes := 0, seconds := 0 }
  else
    let t : Nat := total.toNat
    { expired := false
      total := total
      days := t / (1000 * 60 * 60 * 24)
      hours := t / (1000 * 60 * 60) % 24
      minutes := t / 1000 / 60 % 60
      seconds := t / 1000 % 60 }

/-! ## Duration formatter (src/bot.js lines 69-77, `formatTimeRemaining`) -/
/-- One component string: `` `${n} day${n !== 1 ? 's' : ''}` `` etc. -/
def partStr (n : Nat) (unit : String) : String :=
  toString n ++ " " ++ unit ++ (if n ≠ 1 then "s" else "")

/-- JavaScript `Array.prototype.join(', ')`. -/
def joinComma : List String → String
  | [] => ""
  | [x] => x
  | x :: y :: r => x ++ ", " ++ joinComma (y :: r)

/-- `formatTimeRemaining(tr)` from src/bot.js.  The JavaScript
`parts.join(', ') || 'Just a moment'` yields the fallback exactly when the
joined string is empty. -/
def formatTimeRemaining (tr : TimeRemaining) : String :=
  if tr.expired then "This countdown has expired!"
  else
    let parts : List String :=
      (if tr.days > 0 then [partStr tr.days "day"] else []) ++
      (if tr.hours > 0 then [partStr tr.hours "hour"] else []) ++
      (if tr.minutes > 0 then [partStr tr.minutes "minute"] else []) ++
      (if tr.seconds > 0 then [partStr tr.seconds "second"] else [])
    let j := joinComma parts
    if j = "" then "Just a moment" else j

/-- Duration formatter as the spec words it (section 4.2): the
comma-joined list of exactly the non-zero components in the order days,
hours, minutes, seconds, singular when the value is exactly 1 and plural
otherwise, with the two fixed phrases for the expired and all-zero cases.
Written from the spec, to be compared with `formatTimeRemaining`. -/
def specFormatTimeRemaining (tr : TimeRemaining) : String :=
  if tr.expired then "This countdown has expired!"
  else
    let comps : List (Nat × String) :=
      [(tr.days, "day"), (tr.hours, "hour"),
       (tr.minutes, "minute"), (tr.seconds, "second")].filter (fun p => p.1 ≠ 0)
    if comps = [] then "Just a moment"
    else joinComma (comps.map (fun p =>
      toString p.1 ++ " " ++ p.2 ++ (if p.1 = 1 then "" else "s")))

/-! ## Countdown records (src/bot.js lines 176-183) -/
/-- One countdown record as pushed by the create handler:
`{ name, targetDate, channelId, messageId, createdBy, createdAt }`. -/
structure Countdown where
  name : String
  targetDate : Int
  channelId : String
  messageId : String
  createdBy : String
  createdAt : Int
deriving Repr, DecidableEq

/-! ## JSON values and the persisted file

`saveCountdowns` writes `JSON.stringify(countdowns, null, 2)` and
`loadCountdowns` assigns `JSON.parse(data)` to the store without further
validation.  JSON trees are modelled by `Json` below; JSON numbers are
restricted to integers, the only numbers this program ever writes.  The
serialized text is modelled character-exactly (2-space pretty printing,
string escaping) and `JSON.parse` by the executable parser further down. -/
inductive Json where
  | null : Json
  | bool : Bool → Json
  | num : Int → Json
  | str : String → Json
  | arr : List Json → Json
  | obj : List (String × Json) → Json

/-- The `\x7b` brace character, kept out of literals. -/
def lbrace : Char := Char.ofNat 123

/-- The `\x7d` brace character, kept out of literals. -/
def rbrace : Char := Char.ofNat 125

/-- Decimal digit character for `d < 10`. -/
def digitChar (d : Nat) : Char := Char.ofNat (48 + d)

/-- Lowercase hexadecimal digit character for `d < 16`, as produced by
`JSON.stringify` in `\u00xx` escapes. -/
def hexDigitChar (d : Nat) : Char :=
  if d < 10 then Char.ofNat (48 + d) else Char.ofNat (87 + d)

/-- Decimal digits of a natural number, most significant first. -/
def natDigits (n : Nat) : List Char :=
  if n < 10 then [digitChar n]
  else natDigits (n / 10) ++ [digitChar (n % 10)]
termination_by n
decreasing_by
  exact Nat.div_lt_self (by omega) (by omega)

/-- Serialized form of an integral JSON number. -/
def numChars (i : Int) : List Char :=
  if i < 0 then '-' :: natDigits i.natAbs else natDigits i.natAbs

/-- `JSON.stringify` escaping of one string character: `"` and `\` get a
backslash, the five short control escapes are used where they exist, the
remaining control characters become `\u00xx`, everything else is emitted
literally. -/
def escChar (c : Char) : List Char :=
  if c = '"' then ['\\', '"']
  else if c = '\\' then ['\\', '\\']
  else if c = '\x08' then ['\\', 'b']
  else if c = '\x09' then ['\\', 't']
  else if c = '\x0a' then ['\\', 'n']
  else if c = '\x0c' then ['\\', 'f']
  else if c = '\x0d' then ['\\', 'r']
  else if c.toNat < 32 then
    ['\\', 'u', '0', '0', hexDigitChar (c.toNat / 16), hexDigitChar (c.toNat % 16)]
  else [c]

/-- Escaped character stream of a whole string body. -/
def escString : List Char → List Char
  | [] => []
  | c :: cs => escChar c ++ escString cs

/-- A serialized JSON string literal, quotes included. -/
def strLitChars (s : String) : List Char :=
  '"' :: (escString s.data ++ ['"'])

/-- `"\x7b\n    "`: object opener at array-element depth of
`JSON.stringify(-, null, 2)`. -/
def objOpen : List Char := [lbrace, '\n', ' ', ' ', ' ', ' ']

/-- `",\n    "`: separator between object members at that depth. -/
def fieldSep : List Char := [',', '\n', ' ', ' ', ' ', ' ']

/-- `"\n  \x7d"`: object closer at that depth. -/
def objClose : List Char := ['\n', ' ', ' ', rbrace]

/-- A serialized `"key": ` piece (keys here contain no escapable chars). -/
def keyColon (k : List Char) : List Char := '"' :: (k ++ ['"', ':', ' '])

/-- Serialized text of one countdown record, exactly as it appears inside
`JSON.stringify(countdowns, null, 2)` (fields in insertion order). -/
def recordChars (c : Countdown) : List Char :=
  objOpen ++ keyColon ['n', 'a', 'm', 'e'] ++ strLitChars c.name ++
  fieldSep ++ keyColon ['t', 'a', 'r', 'g', 'e', 't', 'D', 'a', 't', 'e'] ++
    numChars c.targetDate ++
  fieldSep ++ keyColon ['c', 'h', 'a', 'n', 'n', 'e', 'l', 'I', 'd'] ++
    strLitChars c.channelId ++
  fieldSep ++ keyColon ['m', 'e', 's', 's', 'a', 'g', 'e', 'I', 'd'] ++
    strLitChars c.messageId ++
  fieldSep ++ keyColon ['c', 'r', 'e', 'a', 't', 'e', 'd', 'B', 'y'] ++
    strLitChars c.createdBy ++
  fieldSep ++ keyColon ['c', 'r', 'e', 'a', 't', 'e', 'd', 'A', 't'] ++
    numChars c.createdAt ++
  objClose

/-- `",\n  "`: separator between array elements. -/
def itemSep : List Char := [',', '\n', ' ', ' ']

/-- Array elements joined by `itemSep`. -/
def joinItems : List (List Char) → List Char
  | [] => []
  | [x] => x
  | x :: y :: r => x ++ itemSep ++ joinItems (y :: r)

/-- Serialized text of the whole countdown array:
`JSON.stringify(countdowns, null, 2)`. -/
def saveChars (l : List Countdown) : List Char :=
  match l with
  | [] => ['[', ']']
  | _ => ['[', '\n', ' ', ' '] ++ joinItems (l.map recordChars) ++ ['\n', ']']

/-- `saveCountdowns()` (src/bot.js lines 46-53): the exact file content
written by `fs.writeFileSync(COUNTDOWNS_FILE, JSON.stringify(countdowns, null, 2))`.
The write failure path only logs and is not reached in this pure model. -/
def saveCountdowns (l : List Countdown) : String :=
  String.mk (saveChars l)

/-- What the create handler stores for one record, as a JSON object with
the six fields in insertion order. -/
def encodeCountdown (c : Countdown) : Json :=
  Json.obj [("name", Json.str c.name), ("targetDate", Json.num c.targetDate),
            ("channelId", Json.str c.channelId), ("messageId", Json.str c.messageId),
            ("createdBy", Json.str c.createdBy), ("createdAt", Json.num c.createdAt)]

/-! ## A `JSON.parse` model -/
/-- JSON insignificant whitespace. -/
def isJsonWs (c : Char) : Bool :=
  c = ' ' || c = '\n' || c = '\t' || c = '\x0d'

/-- Skip insignificant whitespace. -/
def skipWs : List Char → List Char
  | [] => []
  | c :: cs => if isJsonWs c then skipWs cs else c :: cs

/-- Value of a hexadecimal digit character. -/
def hexVal (c : Char) : Option Nat :=
  if c.isDigit then some (c.toNat - 48)
  else if 'a' ≤ c ∧ c ≤ 'f' then some (c.toNat - 87)
  else if 'A' ≤ c ∧ c ≤ 'F' then some (c.toNat - 55)
  else none

/-- Prepend a character to the string part of a parser result. -/
def consRes (c : Char) (o : Option (List Char × List Char)) :
    Option (List Char × List Char) :=
  o.map (fun p => (c :: p.1, p.2))

/-- Parse a JSON string body after the opening quote, returning the
decoded characters and the rest of the input past the closing quote. -/
def parseStrBody : List Char → Option (List Char × List Char)
  | [] => none
  | c :: r =>
    if c = '"' then some ([], r)
    else if c = '\\' then
      match r with
      | [] => none
      | e :: r2 =>
        if e = '"' then consRes '"' (parseStrBody r2)
        else if e = '\\' then consRes '\\' (parseStrBody r2)
        else if e = '/' then consRes '/' (parseStrBody r2)
        else if e = 'b' then consRes '\x08' (parseStrBody r2)
        else if e = 'f' then consRes '\x0c' (parseStrBody r2)
        else if e = 'n' then consRes '\x0a' (parseStrBody r2)
        else if e = 'r' then consRes '\x0d' (parseStrBody r2)
        else if e = 't' then consRes '\x09' (parseStrBody r2)
        else if e = 'u' then
          match r2 with
          | a :: b :: cc :: d :: r3 =>
            match hexVal a, hexVal b, hexVal cc, hexVal d with
            | some x1, some x2, some x3, some x4 =>
              consRes (Char.ofNat (x1 * 4096 + x2 * 256 + x3 * 16 + x4))
                (parseStrBody r3)
            | _, _, _, _ => none
          | _ => none
        else none
    else consRes c (parseStrBody r)

/-- Numeric value of a digit character string. -/
def digitsVal (cs : List Char) : Nat :=
  cs.foldl (fun a c => 10 * a + (c.toNat - 48)) 0

/-- Parse an integral JSON number token (optional minus, decimal digits). -/
def parseNumTok (cs : List Char) : Option (Int × List Char) :=
  match cs with
  | '-' :: r =>
    let ds := r.takeWhile Char.isDigit
    if ds = [] then none
    else some (-(digitsVal ds : Int), r.drop ds.length)
  | r =>
    let ds := r.takeWhile Char.isDigit
    if ds = [] then none
    else some ((digitsVal ds : Int), r.drop ds.length)

mutual

/-- Parse one JSON value.  `fuel` only bounds the recursion through
arrays and objects; `JSON.parse` itself has no such bound, and
`parseJson` below supplies fuel that can never run out on its input. -/
def parseValue : Nat → List Char → Option (Json × List Char)
  | 0, _ => none
  | _ + 1, [] => none
  | fuel + 1, c :: cs =>
    if c = 'n' then
      match cs with
      | 'u' :: 'l' :: 'l' :: r => some (Json.null, r)
      | _ => none
    else if c = 't' then
      match cs with
      | 'r' :: 'u' :: 'e' :: r => some (Json.bool true, r)
      | _ => none
    else if c = 'f' then
      match cs with
      | 'a' :: 'l' :: 's' :: 'e' :: r => some (Json.bool false, r)
      | _ => none
    else if c = '"' then
      (parseStrBody cs).map (fun p => (Json.str (String.mk p.1), p.2))
    else if c = '[' then
      match skipWs cs with
      | [] => (parseElems fuel []).map (fun p => (Json.arr p.1, p.2))
      | d :: r1 =>
        if d = ']' then some (Json.arr [], r1)
        else (parseElems fuel (d :: r1)).map (fun p => (Json.arr p.1, p.2))
    else if c = lbrace then
      match skipWs cs with
      | [] => none
      | d :: r1 =>
        if d = rbrace then some (Json.obj [], r1)
        else (parseMembers fuel (d :: r1)).map (fun p => (Json.obj p.1, p.2))
    else
      (parseNumTok (c :: cs)).map (fun p => (Json.num p.1, p.2))

/-- Parse the elements of a non-empty JSON array, after the opening
bracket and leading whitespace. -/
def parseElems : Nat → List Char → Option (List Json × List Char)
  | 0, _ => none
  | fuel + 1, cs =>
    match parseValue fuel cs with
    | none => none
    | some (v, r1) =>
      match skipWs r1 with
      | [] => none
      | c :: r2 =>
        if c = ',' then (parseElems fuel (skipWs r2)).map (fun p => (v :: p.1, p.2))
        else if c = ']' then some ([v], r2)
        else none

/-- Parse the members of a non-empty JSON object, after the opening
brace and leading whitespace. -/
def parseMembers : Nat → List Char → Option (List (String × Json) × List Char)
  | 0, _ => none
  | fuel + 1, cs =>
    match cs with
    | [] => none
    | c :: cs2 =>
      if c = '"' then
        match parseStrBody cs2 with
        | none => none
        | some (key, r1) =>
          match skipWs r1 with
          | [] => none
          | d :: r2 =>
            if d = ':' then
              match parseValue fuel (skipWs r2) with
              | none => none
              | some (v, r3) =>
                match skipWs r3 with
                | [] => none
                | e :: r4 =>
                  if e = ',' then
                    (parseMembers fuel (skipWs r4)).map
                      (fun p => ((String.mk key, v) :: p.1, p.2))
                  else if e = rbrace then some ([(String.mk key, v)], r4)
                  else none
            else none
      else none

end

/-- `JSON.parse`: parse a whole string as one JSON value, allowing
surrounding whitespace and nothing else. -/
def parseJson (s : String) : Option Json :=
  match parseValue (2 * s.data.length + 2) (skipWs s.data) with
  | some (j, r) => if skipWs r = [] then some j else none
  | none => none

/-- `loadCountdowns()` (src/bot.js lines 32-43) as a function of the
persistent file content: a missing file leaves the store at its initial
`[]`; otherwise the store receives `JSON.parse(data)` unvalidated, and a
parse failure is caught (and logged) leaving `countdowns = []`.  The
result is the raw value held by the `countdowns` variable. -/
def loadCountdowns (file : Option String) : Json :=
  match file with
  | none => Json.arr []
  | some s =>
    match parseJson s with
    | some j => j
    | none => Json.arr []

/-- Read one loaded record back field-for-field (the shape `saveCountdowns`
wrote). -/
def decodeCountdown (j : Json) : Option Countdown :=
  match j with
  | Json.obj [("name", Json.str n), ("targetDate", Json.num t),
              ("channelId", Json.str ch), ("messageId", Json.str m),
              ("createdBy", Json.str u), ("createdAt", Json.num a)] =>
    some { name := n, targetDate := t, channelId := ch, messageId := m,
           createdBy := u, createdAt := a }
  | _ => none

/-- Read a loaded record list back field-for-field. -/
def decodeList : List Json → Option (List Countdown)
  | [] => some []
  | j :: r =>
    match decodeCountdown j, decodeList r with
    | some c, some l => some (c :: l)
    | _, _ => none

/-- Read a loaded store value back as a record collection. -/
def decodeCountdowns (j : Json) : Option (List Countdown) :=
  match j with
  | Json.arr l => decodeList l
  | _ => none

/-! ## Calendar instants: `new Date(year, month - 1, day, hour, minute, second)`

ECMAScript `MakeDay` builds the day number of the first of the (possibly
overflowed) month in the proleptic Gregorian calendar and then adds
`day - 1`; out-of-range month and day values roll over instead of
failing.  Years 0-99 are mapped to 1900-1999 by the `Date` constructor.
The process local timezone is modelled as UTC. -/
/-- Day number (days since 1970-01-01) of the first day of month `m` of
year `y` in the proleptic Gregorian calendar. -/
def daysFromCivil (y : Int) (m : Int) : Int :=
  let y2 := if m ≤ 2 then y - 1 else y
  let era := Int.fdiv y2 400
  let yoe := y2 - era * 400
  let mp := Int.emod (m + 9) 12
  let doy := (153 * mp + 2) / 5
  let doe := yoe * 365 + yoe / 4 - yoe / 100 + doy
  era * 146097 + doe - 719468

/-- Epoch milliseconds of
`new Date(year, month - 1, day, hour, minute, second)` with the local
timezone taken as UTC.  `month`, `day` and `hour` roll over exactly as in
ECMAScript (month 13 is January of the next year, day 40 runs past the
end of the month, hour 29 runs into the next day). -/
def jsDateMs (year month day hour minute second : Nat) : Int :=
  let y : Int := if year ≤ 99 then 1900 + (year : Int) else (year : Int)
  let monthIndex : Int := (month : Int) - 1
  let ym : Int := y + Int.fdiv monthIndex 12
  let mn : Int := Int.emod monthIndex 12
  let days : Int := daysFromCivil ym (mn + 1) + ((day : Int) - 1)
  days * 86400000 + (hour : Int) * 3600000 + (minute : Int) * 60000 + (second : Int) * 1000

/-- `isNaN(targetDate.getTime())`: a `Date` holds `NaN` exactly when the
time value left the ±8.64e15 ms range (ECMAScript `TimeClip`). -/
def jsTimeValid (t : Int) : Bool :=
  decide (-8640000000000000 ≤ t ∧ t ≤ 8640000000000000)

/-! ## Command interpreter (src/bot.js lines 136-256)

The create-command regex
`^!countdown\s+"([^"]+)"\s+(\d\x7b4\x7d-\d\x7b2\x7d-\d\x7b2\x7d)(?:\s+([0-2]?\d:[0-5]\d(?::[0-5]\d)?))?\s*$`
is compiled by hand into the deterministic matcher below.  Its only real
choice points are the optional time group (handled by the explicit
try-then-fallback) and `[0-2]?` before the hour digit (the two
alternatives are mutually exclusive because the character after the hour
must be a digit in one case and `:` in the other), so the compilation is
faithful to the backtracking regex. -/
/-- JavaScript `\s` (the whitespace characters that can actually occur in
chat text). -/
def isJsWs (c : Char) : Bool :=
  c = ' ' || c = '\t' || c = '\n' || c = '\x0d' || c = '\x0b' || c = '\x0c' || c = '\xa0'

/-- `\s+`: one or more whitespace characters, consumed greedily. -/
def ws1 (cs : List Char) : Option (List Char) :=
  match cs with
  | c :: r => if isJsWs c then some (r.dropWhile isJsWs) else none
  | [] => none

/-- Consume an exact literal. -/
def dropLit : List Char → List Char → Option (List Char)
  | [], cs => some cs
  | l :: ls, c :: cs => if c = l then dropLit ls cs else none
  | _ :: _, [] => none

/-- `\d\x7b4\x7d-\d\x7b2\x7d-\d\x7b2\x7d`, returning the `Number(...)` of
each dash-separated group (the `datePart.split('-').map(Number)` step). -/
def parseDateDigits (cs : List Char) :
    Option (Nat × Nat × Nat × List Char) :=
  match cs with
  | y1 :: y2 :: y3 :: y4 :: s1 :: a1 :: a2 :: s2 :: b1 :: b2 :: r =>
    if y1.isDigit && y2.isDigit && y3.isDigit && y4.isDigit &&
       s1 = '-' && a1.isDigit && a2.isDigit && s2 = '-' &&
       b1.isDigit && b2.isDigit then
      some (digitsVal [y1, y2, y3, y4], digitsVal [a1, a2], digitsVal [b1, b2], r)
    else none
  | _ => none

/-- `[0-5]\d(?::[0-5]\d)?` after the hour and its colon; the absent
seconds group defaults to `0` (the `second = 0` destructuring default). -/
def parseMinSec (hour : Nat) (cs : List Char) :
    Option (Nat × Nat × Nat × List Char) :=
  match cs with
  | m1 :: m2 :: rest =>
    if m1.isDigit && m1 ≤ '5' && m2.isDigit then
      match rest with
      | ':' :: s1 :: s2 :: r2 =>
        if s1.isDigit && s1 ≤ '5' && s2.isDigit then
          some (hour, digitsVal [m1, m2], digitsVal [s1, s2], r2)
        else some (hour, digitsVal [m1, m2], 0, rest)
      | _ => some (hour, digitsVal [m1, m2], 0, rest)
    else none
  | _ => none

/-- `[0-2]?\d:[0-5]\d(?::[0-5]\d)?`: the time-of-day token. -/
def parseTimeTok (cs : List Char) : Option (Nat × Nat × Nat × List Char) :=
  match cs with
  | c1 :: c2 :: r =>
    if c1.isDigit && c1 ≤ '2' && c2.isDigit then
      match r with
      | ':' :: r2 => parseMinSec (digitsVal [c1, c2]) r2
      | _ => none
    else if c1.isDigit && c2 = ':' then
      parseMinSec (digitsVal [c1]) r
    else none
  | _ => none

/-- The whole create-command regex applied to the full message content.
Returns the event name, the `Number`ed year/month/day, and the
hour/minute/second with absent fields already defaulted to 0. -/
def matchCountdownCmd (cs : List Char) :
    Option (String × (Nat × Nat × Nat) × (Nat × Nat × Nat)) :=
  match dropLit ['!', 'c', 'o', 'u', 'n', 't', 'd', 'o', 'w', 'n'] cs with
  | none => none
  | some r0 =>
    match ws1 r0 with
    | none => none
    | some r1 =>
      match r1 with
      | '"' :: r2 =>
        let nm := r2.takeWhile (fun c => c ≠ '"')
        if nm = [] then none
        else
          match r2.drop nm.length with
          | '"' :: r3 =>
            match ws1 r3 with
            | none => none
            | some r4 =>
              match parseDateDigits r4 with
              | none => none
              | some (y, mo, d, r5) =>
                match (do
                  let r6 ← ws1 r5
                  let (h, mi, sec, r7) ← parseTimeTok r6
                  if r7.dropWhile isJsWs = [] then some (h, mi, sec) else none :
                    Option (Nat × Nat × Nat)) with
                | some (h, mi, sec) => some (String.mk nm, (y, mo, d), (h, mi, sec))
                | none =>
                  if r5.dropWhile isJsWs = [] then
                    some (String.mk nm, (y, mo, d), (0, 0, 0))
                  else none
          | _ => none
      | _ => none

/-- JavaScript `parseInt(s, 10)`: skip leading whitespace, optional sign,
then the longest digit run; `NaN` (here `none`) when there are no digits,
and any trailing garbage is ignored. -/
def parseIntJs (s : String) : Option Int :=
  let cs := s.data.dropWhile isJsWs
  match cs with
  | '-' :: r =>
    let ds := r.takeWhile Char.isDigit
    if ds = [] then none else some (-(digitsVal ds : Int))
  | '+' :: r =>
    let ds := r.takeWhile Char.isDigit
    if ds = [] then none else some ((digitsVal ds : Int))
  | r =>
    let ds := r.takeWhile Char.isDigit
    if ds = [] then none else some ((digitsVal ds : Int))

/-- `String.prototype.trim()`. -/
def jsTrim (cs : List Char) : List Char :=
  ((cs.dropWhile isJsWs).reverse.dropWhile isJsWs).reverse

/-- `split(/ +/)` (on the already-trimmed command body, whose tokens are
never empty, so the trailing-separator corner of the JavaScript split
cannot arise). -/
def splitSpacesAux : Nat → List Char → List String
  | 0, _ => []
  | fuel + 1, cs =>
    let tok := cs.takeWhile (fun c => c ≠ ' ')
    let rest := (cs.drop tok.length).dropWhile (fun c => c = ' ')
    if rest = [] then [String.mk tok] else String.mk tok :: splitSpacesAux fuel rest

/-- `content.slice(prefix.length).trim().split(/ +/)`. -/
def splitSpaces (cs : List Char) : List String :=
  splitSpacesAux (cs.length + 1) cs

/-! ## The messageCreate handler (src/bot.js lines 136-256) -/
/-- An inbound chat message with the identity facts the handler reads.
`hasManageMessages` is the platform's answer to
`message.member.permissions.has('ManageMessages')`. -/
structure InboundMessage where
  content : String
  authorBot : Bool
  authorId : String
  channelId : String
  hasManageMessages : Bool

/-- Collaborator oracle for one handled message: the clock, whether
`channel.send` succeeds, the platform error text if it fails, and the id
Discord assigns to the sent tracking message. -/
structure BotEnv where
  now : Int
  sendOk : Bool
  sendErr : String
  newMessageId : String

/-- Everything one handled message does: the store afterwards, the
`message.reply` texts, the number of rich messages sent to the channel,
the reactions added, the file contents written by `saveCountdowns`, and
the number of `updateBotStatus` calls. -/
structure HandlerEffects where
  store : List Countdown
  replies : List String
  channelSends : Nat
  reactions : List String
  writes : List String
  statusUpdates : Nat
deriving Repr, DecidableEq

/-- No observable intent: nothing sent, nothing stored, nothing saved. -/
def noEffects (st : List Countdown) : HandlerEffects :=
  { store := st, replies := [], channelSends := 0, reactions := [],
    writes := [], statusUpdates := 0 }

/-- A lone `message.reply` with no state change. -/
def mkReply (st : List Countdown) (text : String) : HandlerEffects :=
  { store := st, replies := [text], channelSends := 0, reactions := [],
    writes := [], statusUpdates := 0 }

/-- The `!countdown` branch (src/bot.js lines 144-192). -/
def countdownBranch (env : BotEnv) (st : List Countdown) (m : InboundMessage) :
    HandlerEffects :=
  match matchCountdownCmd m.content.data with
  | none => mkReply st ("Usage: `!countdown \"Event Name\" YYYY-MM-DD [HH:MM:SS]`")
  | some (nm, (y, mo, d), (h, mi, sec)) =>
    let target := jsDateMs y mo d h mi sec
    if jsTimeValid target = false then
      mkReply st ("Invalid date—I couldn’t parse that. Please use YYYY-MM-DD [HH:MM:SS]")
    else if env.sendOk then
      let cd : Countdown :=
        { name := nm, targetDate := target, channelId := m.channelId,
          messageId := env.newMessageId, createdBy := m.authorId,
          createdAt := env.now }
      let st2 := st ++ [cd]
      { store := st2, replies := [], channelSends := 1, reactions := ["✅"],
        writes := [saveCountdowns st2], statusUpdates := 1 }
    else
      { store := st,
        replies := ["An error occurred while creating the countdown: " ++ env.sendErr],
        channelSends := 0, reactions := [], writes := [], statusUpdates := 0 }

/-- The `!countdowns` branch (src/bot.js lines 195-215). -/
def listBranch (st : List Countdown) : HandlerEffects :=
  if st.length = 0 then mkReply st ("No active countdowns.")
  else { store := st, replies := [], channelSends := 1, reactions := [],
         writes := [], statusUpdates := 0 }

/-- The out-of-range fallback for `countdowns[idx]`; unreachable under
the index guard. -/
instance : Inhabited Countdown :=
  ⟨{ name := "", targetDate := 0, channelId := "", messageId := "",
     createdBy := "", createdAt := 0 }⟩

/-- The `!delcountdown` branch (src/bot.js lines 218-237).  `args` is the
argument token list after the command word was shifted off. -/
def delBranch (st : List Countdown) (args : List String) (m : InboundMessage) :
    HandlerEffects :=
  match args with
  | [] =>
    mkReply st ("Please specify the index number of the countdown to delete. Use `!countdowns` to see the list.")
  | a :: _ =>
    if a = "" then
      mkReply st ("Please specify the index number of the countdown to delete. Use `!countdowns` to see the list.")
    else
      match parseIntJs a with
      | none => mkReply st ("Invalid countdown index.")
      | some n =>
        let idx : Int := n - 1
        if idx < 0 ∨ (st.length : Int) ≤ idx then
          mkReply st ("Invalid countdown index.")
        else
          let cd := st.getD idx.toNat default
          if cd.createdBy ≠ m.authorId ∧ m.hasManageMessages = false then
            mkReply st ("You can only delete countdowns that you created.")
          else
            let st2 := st.eraseIdx idx.toNat
            { store := st2,
              replies := ["Countdown \"" ++ cd.name ++ "\" has been deleted."],
              channelSends := 0, reactions := [],
              writes := [saveCountdowns st2], statusUpdates := 1 }

/-- `content.startsWith(config.prefix)` with the configured prefix `!`
(expressed on the character list so that it reduces definitionally). -/
def startsWithBang : List Char → Bool
  | c :: _ => c = '!'
  | [] => false

/-- The whole messageCreate handler (src/bot.js lines 136-256): the bot
and prefix guards, the `trim().split(/ +/)` tokenization, the lowercased
command word, and the four command branches. -/
def handleMessage (env : BotEnv) (st : List Countdown) (m : InboundMessage) :
    HandlerEffects :=
  if m.authorBot then noEffects st
  else if startsWithBang m.content.data = false then noEffects st
  else
    let body := jsTrim (m.content.data.drop 1)
    let toks := splitSpaces body
    let command := String.mk ((toks.headD ("")).data.map Char.toLower)
    let args := toks.tail
    if command = "countdown" then countdownBranch env st m
    else if command = "countdowns" then listBranch st
    else if command = "delcountdown" then delBranch st args m
    else if command = "help" then
      { store := st, replies := [], channelSends := 1, reactions := [],
        writes := [], statusUpdates := 0 }
    else noEffects st

/-! ## Refresh loop and status reporter (src/bot.js lines 80-125) -/
/-- `updateCountdownMessage(countdown)` (src/bot.js lines 80-103): edits
the tracking message to the freshly computed state (the final edit shows
the expired phrase when expired) and returns `!tr.expired`; any failure
of the fetch/edit calls is caught and returns `false`.  `editOk` is the
collaborator oracle saying whether the fetch+edit round trip succeeds. -/
def updateCountdownMessage (editOk : Countdown → Bool) (now : Int)
    (cd : Countdown) : Bool :=
  if editOk cd then !(getTimeRemaining cd.targetDate now).expired else false

/-- The `stillActive` list built by one pass of `updateAllCountdowns`. -/
def retainedSet (editOk : Countdown → Bool) (now : Int)
    (store : List Countdown) : List Countdown :=
  store.filter (fun cd => updateCountdownMessage editOk now cd)

/-- `updateBotStatus()` activity text (src/bot.js lines 120-125). -/
def statusText (n : Nat) : String :=
  toString n ++ " countdown" ++ (if n ≠ 1 then "s" else "")

/-- Observable state across refresh cycles: the store, the log of file
contents written, and the log of presence texts set. -/
structure RefreshState where
  store : List Countdown
  writes : List String
  statusLog : List String
deriving Repr, DecidableEq

/-- `updateAllCountdowns()` (src/bot.js lines 106-117): build the
retained set, and only when its size differs from the store replace the
store, persist it, and refresh the status text. -/
def updateAllCountdowns (editOk : Countdown → Bool) (now : Int)
    (s : RefreshState) : RefreshState :=
  let stillActive := retainedSet editOk now s.store
  if stillActive.length ≠ s.store.length then
    { store := stillActive,
      writes := s.writes ++ [saveCountdowns stillActive],
      statusLog := s.statusLog ++ [statusText stillActive.length] }
  else s

/-! ## Sample fixtures used by concrete witnesses -/
/-- A concrete record used in witnesses. -/
def sampleCd : Countdown :=
  { name := "A", targetDate := 100, channelId := "c", messageId := "m",
    createdBy := "u1", createdAt := 0 }

/-- A concrete collaborator environment used in witnesses: clock at 0,
sends succeed, Discord assigns message id "m1". -/
def stdEnv : BotEnv :=
  { now := 0, sendOk := true, sendErr := "boom", newMessageId := "m1" }

/-- A concrete non-bot message from user "u1" in channel "c1". -/
def mkMsg (c : String) : InboundMessage :=
  { content := c, authorBot := false, authorId := "u1", channelId := "c1",
    hasManageMessages := false }

/-! ## C7: the accepted hour range is 0-29, not 0-23

`[0-2]?\d` matches any single digit or any two digits whose first is
0, 1 or 2, so two-digit hours 24-29 pass validation (and roll over into
the next day via `new Date`). -/
/-- A create command whose time-of-day has the given two-digit hour. -/
def hourMsg (h : Nat) : List Char :=
  ("!countdown \"X\" 2030-01-01 ").data ++
    [digitChar (h / 10), digitChar (h % 10)] ++ (":30").data

/-- Whether the head of the remaining input fails the predicate (used to
stop `takeWhile` exactly at a token boundary). -/
def headFails (p : Char → Bool) : List Char → Prop
  | [] => True
  | c :: _ => p c = false

/-- One serialized object member ready to parse, together with the
`Json` member it denotes: the key parses back to itself, the serialized
value is whitespace-stable and parses back to the denoted value at any
sufficient fuel. -/
def MemberOk (kv : List Char × List Char) (m : String × Json) : Prop :=
  (∀ r2 : List Char, parseStrBody (kv.1 ++ ('"' :: r2)) = some (kv.1, r2)) ∧
  String.mk kv.1 = m.1 ∧
  (∀ X : List Char, skipWs (kv.2 ++ X) = kv.2 ++ X) ∧
  (∀ (g : Nat) (r2 : List Char), headFails Char.isDigit r2 →
    parseValue (g + 1) (kv.2 ++ r2) = some (m.2, r2))

/-- The member section of a pretty-printed object, joined by
`",\n    "`. -/
def membersChars : List (List Char × List Char) → List Char
  | [] => []
  | [kv] => keyColon kv.1 ++ kv.2
  | kv :: rest => keyColon kv.1 ++ kv.2 ++ fieldSep ++ membersChars rest

/-- The member section after its leading quote. -/
def membersTailChars (kv : List Char × List Char)
    (rest : List (List Char × List Char)) : List Char :=
  match rest with
  | [] => (kv.1 ++ ['"', ':', ' ']) ++ kv.2
  | _ => (kv.1 ++ ['"', ':', ' ']) ++ kv.2 ++ fieldSep ++ membersChars rest

/-- The six members of one serialized record, in insertion order. -/
def recordMembers (cd : Countdown) : List (List Char × List Char) :=
  [(['n', 'a', 'm', 'e'], strLitChars cd.name),
   (['t', 'a', 'r', 'g', 'e', 't', 'D', 'a', 't', 'e'], numChars cd.targetDate),
   (['c', 'h', 'a', 'n', 'n', 'e', 'l', 'I', 'd'], strLitChars cd.channelId),
   (['m', 'e', 's', 's', 'a', 'g', 'e', 'I', 'd'], strLitChars cd.messageId),
   (['c', 'r', 'e', 'a', 't', 'e', 'd', 'B', 'y'], strLitChars cd.createdBy),
   (['c', 'r', 'e', 'a', 't', 'e', 'd', 'A', 't'], numChars cd.createdAt)]

/-- The text of one serialized record after its opening brace. -/
def recordTail (cd : Countdown) (Y : List Char) : List Char :=
  '\n' :: ' ' :: ' ' :: ' ' :: ' ' ::
    (membersChars (recordMembers cd) ++ ('\n' :: ' ' :: ' ' :: rbrace :: Y))

/-- What follows the first serialized record of an array section. -/
def joinRest (ls : List Countdown) (X : List Char) : List Char :=
  match ls with
  | [] => X
  | _ => itemSep ++ (joinItems (ls.map recordChars) ++ X)

/-! ## Helper lemmas -/
theorem strData_append (a b : String) : (a ++ b).data = a.data ++ b.data := by
  cases a; cases b; rfl

theorem str_ne_empty_of_data (a : String) (h : a.data ≠ []) : a ≠ "" := by
  intro h2
  exact h (h2 ▸ rfl)

theorem partStr_ne_empty (n : Nat) (u : String) : partStr n u ≠ "" := by
  apply str_ne_empty_of_data
  rw [partStr, strData_append, strData_append, strData_append]
  intro h
  rw [show (" ").data = [' '] from rfl] at h
  simp at h

theorem joinComma_cons_ne_empty (x y : String) (r : List String) :
    joinComma (x :: y :: r) ≠ "" := by
  apply str_ne_empty_of_data
  rw [joinComma, strData_append, strData_append]
  intro h
  rw [show (", ").data = [',', ' '] from rfl] at h
  simp at h

theorem pluralSwap (n : Nat) (u : String) :
    partStr n u = toString n ++ " " ++ u ++ (if n = 1 then "" else "s") := by
  rw [partStr]
  by_cases h : n = 1 <;> simp [h]

/-! ## C3: the duration calculator contract -/
/-- C3: for every pair of instants, if `target - now <= 0` the calculator
returns `expired=true` with all numeric fields zero; otherwise it returns
`expired=false` with `days = floor(delta/86400000)`, hours in 0-23,
minutes and seconds in 0-59, and
`days*86400 + hours*3600 + minutes*60 + seconds = floor(delta/1000)`. -/
theorem getTimeRemaining_contract (target now : Int) :
    (target - now ≤ 0 →
      getTimeRemaining target now =
        { expired := true, total := 0, days := 0, hours := 0,
          minutes := 0, seconds := 0 }) ∧
    (0 < target - now →
      (getTimeRemaining target now).expired = false ∧
      (getTimeRemaining target now).days = (target - now).toNat / 86400000 ∧
      (getTimeRemaining target now).hours < 24 ∧
      (getTimeRemaining target now).minutes < 60 ∧
      (getTimeRemaining target now).seconds < 60 ∧
      (getTimeRemaining target now).days * 86400 +
        (getTimeRemaining target now).hours * 3600 +
        (getTimeRemaining target now).minutes * 60 +
        (getTimeRemaining target now).seconds =
        (target - now).toNat / 1000) := by
  constructor
  · intro h
    simp [getTimeRemaining, h]
  · intro h
    have h2 : ¬ (target - now ≤ 0) := by omega
    have e : getTimeRemaining target now =
        { expired := false, total := target - now,
          days := (target - now).toNat / (1000 * 60 * 60 * 24),
          hours := (target - now).toNat / (1000 * 60 * 60) % 24,
          minutes := (target - now).toNat / 1000 / 60 % 60,
          seconds := (target - now).toNat / 1000 % 60 } := by
      simp [getTimeRemaining, h2]
    rw [e]
    refine ⟨rfl, by dsimp only, by dsimp only; omega,
      by dsimp only; omega, by dsimp only; omega, by dsimp only; omega⟩

/-- Witness for C3 at the concrete delta of 1 day, 1 hour, 1 minute,
1 second and a half. -/
theorem getTimeRemaining_contract_witness :
    (getTimeRemaining 90061500 0).expired = false ∧
    (getTimeRemaining 90061500 0).days * 86400 +
      (getTimeRemaining 90061500 0).hours * 3600 +
      (getTimeRemaining 90061500 0).minutes * 60 +
      (getTimeRemaining 90061500 0).seconds =
      ((90061500 : Int) - 0).toNat / 1000 :=
  ⟨((getTimeRemaining_contract 90061500 0).2 (by norm_num)).1,
   ((getTimeRemaining_contract 90061500 0).2 (by norm_num)).2.2.2.2.2⟩

theorem append_comma_ne_empty (x y : String) : x ++ ", " ++ y ≠ "" := by
  apply str_ne_empty_of_data
  rw [strData_append, strData_append]
  intro h
  rw [show (", ").data = [',', ' '] from rfl] at h
  simp at h

/-! ## C4: the duration formatter -/
/-- C4: the formatter returns the fixed expired phrase when expired,
otherwise the comma-joined list of exactly the non-zero components in the
order days, hours, minutes, seconds, singular exactly at value 1, and the
fixed phrase "Just a moment" when every component is zero: it agrees with
the formatter transcribed from the spec wording. -/
theorem formatTimeRemaining_eq_spec (tr : TimeRemaining) :
    formatTimeRemaining tr = specFormatTimeRemaining tr := by
  rw [formatTimeRemaining, specFormatTimeRemaining]
  by_cases he : tr.expired
  · simp [he]
  · simp only [if_neg he, Bool.not_eq_true]
    have hparts :
        ((if tr.days > 0 then [partStr tr.days "day"] else []) ++
         (if tr.hours > 0 then [partStr tr.hours "hour"] else []) ++
         (if tr.minutes > 0 then [partStr tr.minutes "minute"] else []) ++
         (if tr.seconds > 0 then [partStr tr.seconds "second"] else [])) =
        ([(tr.days, "day"), (tr.hours, "hour"), (tr.minutes, "minute"),
          (tr.seconds, "second")].filter (fun p => p.1 ≠ 0)).map
          (fun p => partStr p.1 p.2) := by
      by_cases hd : tr.days = 0 <;> by_cases hh : tr.hours = 0 <;>
        by_cases hm : tr.minutes = 0 <;> by_cases hs : tr.seconds = 0 <;>
        simp [hd, hh, hm, hs, Nat.pos_of_ne_zero]
    simp only [hparts]
    set L := [(tr.days, "day"), (tr.hours, "hour"), (tr.minutes, "minute"),
      (tr.seconds, "second")].filter (fun p => p.1 ≠ 0) with hL
    by_cases hnil : L = []
    · simp [hnil, joinComma]
    · have hmapne : L.map (fun p => partStr p.1 p.2) ≠ [] := by
        simpa using hnil
      have hne : joinComma (L.map (fun p => partStr p.1 p.2)) ≠ "" := by
        rcases hfirst : L with _ | ⟨p, L2⟩
        · exact absurd hfirst hnil
        · rcases L2 with _ | ⟨q, L3⟩
          · simpa [joinComma] using partStr_ne_empty p.1 p.2
          · exact joinComma_cons_ne_empty _ _ _
      rw [if_neg hne, if_neg hnil]
      congr 1
      exact List.map_congr_left (fun p _ => pluralSwap p.1 p.2)

/-! ## C1: the refresh-cycle retention policy -/
/-- C1: in a refresh cycle, a record of the store is kept in the retained
set exactly when the edit of its tracking message succeeds and its
computed duration is not expired; a failed edit or an expired duration
(the latter after the final edit attempt, which `updateCountdownMessage`
performs before returning) drops it. -/
theorem retainedSet_mem_iff (editOk : Countdown → Bool) (now : Int)
    (store : List Countdown) (cd : Countdown) (h : cd ∈ store) :
    cd ∈ retainedSet editOk now store ↔
      (editOk cd = true ∧ (getTimeRemaining cd.targetDate now).expired = false) := by
  unfold retainedSet updateCountdownMessage
  rw [List.mem_filter]
  cases hE : editOk cd <;> simp [h, hE]

/-- Witness for C1: with the clock past the target (expired) and a
succeeding edit, the sample record is dropped from the retained set. -/
theorem retainedSet_mem_iff_witness :
    sampleCd ∉ retainedSet (fun _ => true) 200 [sampleCd] := by
  intro hmem
  have h := (retainedSet_mem_iff (fun _ => true) 200 [sampleCd] sampleCd
    (by simp)).mp hmem
  revert h
  decide

/-! ## C9: a cycle that drops nothing changes nothing -/
/-- C9: when the retained set has the same size as the store at the start
of the pass, `updateAllCountdowns` leaves the store, the persisted-file
write log and the status log exactly as they were: no save and no status
refresh occur. -/
theorem updateAllCountdowns_frame (editOk : Countdown → Bool) (now : Int)
    (s : RefreshState)
    (h : (retainedSet editOk now s.store).length = s.store.length) :
    updateAllCountdowns editOk now s = s := by
  unfold updateAllCountdowns
  simp [h]

/-- Witness for C9 on the empty store. -/
theorem updateAllCountdowns_frame_witness :
    updateAllCountdowns (fun _ => true) 0
      { store := [], writes := [], statusLog := [] } =
      { store := [], writes := [], statusLog := [] } :=
  updateAllCountdowns_frame (fun _ => true) 0
    { store := [], writes := [], statusLog := [] } rfl

/-! ## C10: messages from bots are ignored entirely -/
/-- C10: for every inbound message whose author is a bot the handler
produces no intent at all: no reply, no send, no reaction, no write, no
status update, and the store is unchanged, whatever the content. -/
theorem handleMessage_bot_noEffects (env : BotEnv) (st : List Countdown)
    (m : InboundMessage) (h : m.authorBot = true) :
    handleMessage env st m = noEffects st := by
  unfold handleMessage
  simp [h]

/-- Witness for C10: a bot-authored, otherwise well-formed create command
does nothing. -/
theorem handleMessage_bot_noEffects_witness :
    handleMessage stdEnv []
      { content := "!countdown \"X\" 2030-01-01", authorBot := true,
        authorId := "u1", channelId := "c1", hasManageMessages := false } =
      noEffects [] :=
  handleMessage_bot_noEffects stdEnv []
    { content := "!countdown \"X\" 2030-01-01", authorBot := true,
      authorId := "u1", channelId := "c1", hasManageMessages := false } rfl

/-! ## C2: out-of-range calendar dates are NOT rejected

`new Date(year, month - 1, day, ...)` rolls invalid month/day fields over
instead of producing `NaN` (its time value only becomes `NaN` outside the
±8.64e15 ms range, unreachable from the regex-bounded digits), so the
`isNaN` validation branch never fires for a regex-matching command and
`!countdown "Bad" 2024-13-40` creates a record aimed at 2025-02-09. -/
/-- Counterexample to C2 as stated: handling `!countdown "Bad" 2024-13-40`
on an empty store creates a record (the store is changed) and sends no
reply at all, in particular not the usage-error reply. -/
theorem createBadDate_counterexample :
    (handleMessage stdEnv [] (mkMsg "!countdown \"Bad\" 2024-13-40")).store =
      [{ name := "Bad", targetDate := 1739059200000, channelId := "c1",
         messageId := "m1", createdBy := "u1", createdAt := 0 }] ∧
    (handleMessage stdEnv [] (mkMsg "!countdown \"Bad\" 2024-13-40")).replies = [] := by
  constructor <;> rfl

/-- Numeric upper bound carried by a digit character. -/
theorem digit_toNat_le {c : Char} (h : c.isDigit = true) : c.toNat ≤ 57 := by
  simp [Char.isDigit] at h
  exact h.2

/-- One regex-matched digit evaluates below 10. -/
theorem digitsVal_le_one {a : Char} (ha : a.isDigit = true) : digitsVal [a] ≤ 9 := by
  have h1 := digit_toNat_le ha
  simp only [digitsVal, List.foldl]
  omega

/-- Two regex-matched digits evaluate below 100. -/
theorem digitsVal_le_two {a b : Char} (ha : a.isDigit = true) (hb : b.isDigit = true) :
    digitsVal [a, b] ≤ 99 := by
  have h1 := digit_toNat_le ha
  have h2 := digit_toNat_le hb
  simp only [digitsVal, List.foldl]
  omega

/-- Four regex-matched digits evaluate below 10000. -/
theorem digitsVal_le_four {a b c d : Char} (ha : a.isDigit = true) (hb : b.isDigit = true)
    (hc : c.isDigit = true) (hd : d.isDigit = true) : digitsVal [a, b, c, d] ≤ 9999 := by
  have h1 := digit_toNat_le ha
  have h2 := digit_toNat_le hb
  have h3 := digit_toNat_le hc
  have h4 := digit_toNat_le hd
  simp only [digitsVal, List.foldl]
  omega

/-- Whatever the date group of the regex matched, its `Number`ed fields
are bounded by their digit counts: year below 10000, month and day below
100. -/
theorem parseDateDigits_bounds {cs : List Char} {y mo d : Nat} {r : List Char}
    (h : parseDateDigits cs = some (y, mo, d, r)) : y ≤ 9999 ∧ mo ≤ 99 ∧ d ≤ 99 := by
  rw [parseDateDigits.eq_def] at h
  split at h
  · split at h
    · rename_i hcond
      simp only [Bool.and_eq_true] at hcond
      obtain ⟨⟨⟨⟨⟨⟨⟨⟨⟨h1, h2⟩, h3⟩, h4⟩, h5⟩, h6⟩, h7⟩, h8⟩, h9⟩, h10⟩ := hcond
      simp only [Option.some.injEq, Prod.mk.injEq] at h
      obtain ⟨e1, e2, e3, e4⟩ := h
      subst e1 e2 e3
      exact ⟨digitsVal_le_four h1 h2 h3 h4, digitsVal_le_two h6 h7, digitsVal_le_two h9 h10⟩
    · exact absurd h (by simp)
  · exact absurd h (by simp)

/-- The minute/second tail of the time token yields values below 100 and
passes the hour through unchanged. -/
theorem parseMinSec_bounds {hour : Nat} {cs : List Char} {h mi s : Nat} {r : List Char}
    (hp : parseMinSec hour cs = some (h, mi, s, r)) : h = hour ∧ mi ≤ 99 ∧ s ≤ 99 := by
  rw [parseMinSec.eq_def] at hp
  split at hp
  · split at hp
    · rename_i hcond
      simp only [Bool.and_eq_true] at hcond
      obtain ⟨⟨h1, _⟩, h2⟩ := hcond
      split at hp
      · split at hp
        · rename_i hcond2
          simp only [Bool.and_eq_true] at hcond2
          obtain ⟨⟨h3, _⟩, h4⟩ := hcond2
          simp only [Option.some.injEq, Prod.mk.injEq] at hp
          obtain ⟨e1, e2, e3, e4⟩ := hp
          subst e2 e3
          exact ⟨e1.symm, digitsVal_le_two h1 h2, digitsVal_le_two h3 h4⟩
        · simp only [Option.some.injEq, Prod.mk.injEq] at hp
          obtain ⟨e1, e2, e3, e4⟩ := hp
          subst e2 e3
          exact ⟨e1.symm, digitsVal_le_two h1 h2, by omega⟩
      · simp only [Option.some.injEq, Prod.mk.injEq] at hp
        obtain ⟨e1, e2, e3, e4⟩ := hp
        subst e2 e3
        exact ⟨e1.symm, digitsVal_le_two h1 h2, by omega⟩
    · exact absurd hp (by simp)
  · exact absurd hp (by simp)

/-- Any time-of-day token the regex accepts has hour, minute and second
below 100 (one or two matched digits each). -/
theorem parseTimeTok_bounds {cs : List Char} {h mi s : Nat} {r : List Char}
    (hp : parseTimeTok cs = some (h, mi, s, r)) : h ≤ 99 ∧ mi ≤ 99 ∧ s ≤ 99 := by
  rw [parseTimeTok.eq_def] at hp
  split at hp
  · split at hp
    · rename_i hcond
      simp only [Bool.and_eq_true] at hcond
      obtain ⟨⟨h1, _⟩, h2⟩ := hcond
      split at hp
      · have hb := parseMinSec_bounds hp
        exact ⟨hb.1 ▸ digitsVal_le_two h1 h2, hb.2⟩
      · exact absurd hp (by simp)
    · split at hp
      · rename_i hcond2
        simp only [Bool.and_eq_true] at hcond2
        obtain ⟨h1, _⟩ := hcond2
        obtain ⟨hbe, hb2⟩ := parseMinSec_bounds hp
        have h9 := digitsVal_le_one h1
        exact ⟨by omega, hb2⟩
      · exact absurd hp (by simp)
  · exact absurd hp (by simp)

/-- Every field tuple the create-command regex can produce is bounded by
its digit count: year below 10000, the other five fields below 100. -/
theorem matchCountdownCmd_bounds {cs : List Char} {nm : String} {y mo d h mi s : Nat}
    (hm : matchCountdownCmd cs = some (nm, (y, mo, d), (h, mi, s))) :
    y ≤ 9999 ∧ mo ≤ 99 ∧ d ≤ 99 ∧ h ≤ 99 ∧ mi ≤ 99 ∧ s ≤ 99 := by
  rw [matchCountdownCmd.eq_def] at hm
  try dsimp only at hm
  repeat' split at hm
  all_goals try exact Option.noConfusion hm
  · rename_i y1 mo1 d1 r5 hdate xx h1 mi1 s1 hdo
    simp only [Option.some.injEq, Prod.mk.injEq] at hm
    obtain ⟨-, ⟨ey, emo, ed⟩, eh, emi, es⟩ := hm
    subst ey; subst emo; subst ed; subst eh; subst emi; subst es
    have hdb := parseDateDigits_bounds hdate
    simp only [bind, Option.bind_eq_some] at hdo
    obtain ⟨r6, hw6, ⟨hh, hmi2, hs2, r7⟩, hpt, hif⟩ := hdo
    split at hif
    · simp only [Option.some.injEq, Prod.mk.injEq] at hif
      obtain ⟨e1, e2, e3⟩ := hif
      subst e1; subst e2; subst e3
      have htb := parseTimeTok_bounds hpt
      exact ⟨hdb.1, hdb.2.1, hdb.2.2, htb.1, htb.2.1, htb.2.2⟩
    · exact Option.noConfusion hif
  · rename_i y1 mo1 d1 r5 hdate xx hdo hwsp
    simp only [Option.some.injEq, Prod.mk.injEq] at hm
    obtain ⟨-, ⟨ey, emo, ed⟩, eh, emi, es⟩ := hm
    subst ey; subst emo; subst ed
    have hdb := parseDateDigits_bounds hdate
    exact ⟨hdb.1, hdb.2.1, hdb.2.2, by omega, by omega, by omega⟩

/-- Floor division by 12 agrees with Euclidean division (the divisor is
positive). -/
theorem fdiv_as_ediv (a : Int) : Int.fdiv a 12 = a / 12 :=
  Int.fdiv_eq_ediv a (by decide)

/-- Floor division by 400 agrees with Euclidean division (the divisor is
positive). -/
theorem fdiv_as_ediv400 (a : Int) : Int.fdiv a 400 = a / 400 :=
  Int.fdiv_eq_ediv a (by decide)

/-- Spelled-out `Int.emod` is the `%` operator. -/
theorem emod_as_mod (a b : Int) : Int.emod a b = a % b := rfl

/-- For the years the bounded date fields can reach, the civil day number
stays within about eight thousand years of the epoch. -/
theorem daysFromCivil_bounds (y m : Int) (hy1 : 99 ≤ y) (hy2 : y ≤ 10008) :
    -700000 ≤ daysFromCivil y m ∧ daysFromCivil y m ≤ 3000000 := by
  simp only [daysFromCivil, fdiv_as_ediv400, emod_as_mod]
  split <;> omega

/-- Digit-count-bounded date/time fields always produce a time value far
inside the ±8.64e15 ms `TimeClip` range, so `isNaN(getTime())` is false. -/
theorem jsTimeValid_of_bounds (y mo d h mi s : Nat) (hy : y ≤ 9999) (hmo : mo ≤ 99)
    (hd : d ≤ 99) (hh : h ≤ 99) (hmi : mi ≤ 99) (hs : s ≤ 99) :
    jsTimeValid (jsDateMs y mo d h mi s) = true := by
  simp only [jsTimeValid, jsDateMs, fdiv_as_ediv, emod_as_mod, decide_eq_true_eq]
  split
  · have hb := daysFromCivil_bounds (1900 + (y : Int) + ((mo : Int) - 1) / 12)
      (((mo : Int) - 1) % 12 + 1) (by omega) (by omega)
    omega
  · have hb := daysFromCivil_bounds ((y : Int) + ((mo : Int) - 1) / 12)
      (((mo : Int) - 1) % 12 + 1) (by omega) (by omega)
    omega

/-- C2 amended: a create command whose date matches the syntactic shape
is never rejected for being an invalid calendar date.  For every message
whose content the regex matches, the constructed time value stays inside
the ±8.64e15 ms range (so the `isNaN` validation branch never fires), and
whenever the tracking-message send succeeds a record for the rolled-over
instant is appended to any store, with no reply at all — in particular no
usage-error reply.  Concretely, `!countdown "Bad" 2024-13-40` stores
target 1739059200000, the local epoch milliseconds of 2025-02-09T00:00,
against any starting store. -/
theorem createBadDate_amended :
    (∀ (env : BotEnv) (st : List Countdown) (m : InboundMessage) (nm : String)
       (y mo d h mi sec : Nat),
      matchCountdownCmd m.content.data = some (nm, (y, mo, d), (h, mi, sec)) →
      jsTimeValid (jsDateMs y mo d h mi sec) = true ∧
      (env.sendOk = true →
        countdownBranch env st m =
          { store := st ++ [{ name := nm, targetDate := jsDateMs y mo d h mi sec,
                              channelId := m.channelId, messageId := env.newMessageId,
                              createdBy := m.authorId, createdAt := env.now }],
            replies := [], channelSends := 1, reactions := ["✅"],
            writes := [saveCountdowns (st ++
              [{ name := nm, targetDate := jsDateMs y mo d h mi sec,
                 channelId := m.channelId, messageId := env.newMessageId,
                 createdBy := m.authorId, createdAt := env.now }])],
            statusUpdates := 1 })) ∧
    jsDateMs 2024 13 40 0 0 0 = 1739059200000 ∧
    (∀ st : List Countdown,
      (handleMessage stdEnv st (mkMsg "!countdown \"Bad\" 2024-13-40")).store =
        st ++ [{ name := "Bad", targetDate := 1739059200000, channelId := "c1",
                 messageId := "m1", createdBy := "u1", createdAt := 0 }] ∧
      (handleMessage stdEnv st (mkMsg "!countdown \"Bad\" 2024-13-40")).replies = []) := by
  refine ⟨?_, by rfl, fun st => ⟨rfl, rfl⟩⟩
  intro env st m nm y mo d h mi sec hm
  have hb := matchCountdownCmd_bounds hm
  have htv : jsTimeValid (jsDateMs y mo d h mi sec) = true :=
    jsTimeValid_of_bounds y mo d h mi sec hb.1 hb.2.1 hb.2.2.1 hb.2.2.2.1
      hb.2.2.2.2.1 hb.2.2.2.2.2
  refine ⟨htv, fun hsend => ?_⟩
  rw [countdownBranch.eq_def, hm]
  simp only [htv, hsend, Bool.true_eq_false, if_false, if_true]

/-- Witness for the amended C2 theorem at `!countdown "Bad" 2024-13-40`:
its match hypothesis holds by computation and the create branch appends
the rolled-over record. -/
theorem createBadDate_amended_witness :
    jsTimeValid (jsDateMs 2024 13 40 0 0 0) = true ∧
    countdownBranch stdEnv [] (mkMsg "!countdown \"Bad\" 2024-13-40") =
      { store := [{ name := "Bad", targetDate := jsDateMs 2024 13 40 0 0 0,
                    channelId := "c1", messageId := "m1", createdBy := "u1",
                    createdAt := 0 }],
        replies := [], channelSends := 1, reactions := ["✅"],
        writes := [saveCountdowns
          [{ name := "Bad", targetDate := jsDateMs 2024 13 40 0 0 0,
             channelId := "c1", messageId := "m1", createdBy := "u1",
             createdAt := 0 }]],
        statusUpdates := 1 } := by
  have h := createBadDate_amended.1 stdEnv [] (mkMsg "!countdown \"Bad\" 2024-13-40")
    "Bad" 2024 13 40 0 0 0 (by rfl)
  exact ⟨h.1, h.2 rfl⟩

/-- Counterexample to C7 as stated: the hour 25 is outside 0-23, yet
handling `!countdown "X" 2030-01-01 25:00` creates a record (whose target
rolls over to 01:00 on 2030-01-02) and sends no validation reply. -/
theorem createHour25_counterexample :
    (handleMessage stdEnv [] (mkMsg "!countdown \"X\" 2030-01-01 25:00")).store =
      [{ name := "X", targetDate := 1893546000000, channelId := "c1",
         messageId := "m1", createdBy := "u1", createdAt := 0 }] ∧
    (handleMessage stdEnv [] (mkMsg "!countdown \"X\" 2030-01-01 25:00")).replies = [] := by
  constructor <;> rfl

/-- C7 amended: the optional time suffix is accepted only in the forms
H:MM, HH:MM or HH:MM:SS with minute and second in 00-59, but the hour
accepts exactly `[0-2]?\d`: one digit 0-9 or two digits 00-29.  A
two-digit hour of 30 or more (or any malformed time) fails the match, and
a failed match draws the usage reply and creates no record. -/
theorem timeHour_amended :
    (∀ h : Fin 100,
      matchCountdownCmd (hourMsg h.val) =
        (if h.val ≤ 29 then some ("X", (2030, 1, 1), (h.val, 30, 0)) else none)) ∧
    (∀ (st : List Countdown) (content : String),
      matchCountdownCmd content.data = none →
        countdownBranch stdEnv st (mkMsg content) =
          mkReply st ("Usage: `!countdown \"Event Name\" YYYY-MM-DD [HH:MM:SS]`")) := by
  constructor
  · decide
  · intro st content h
    unfold countdownBranch
    simp [mkMsg, h]

/-- Witness for C7 amended: hour 25 is matched (and hour 30 with the
generic usage fallback draws the usage reply). -/
theorem timeHour_amended_witness :
    matchCountdownCmd (hourMsg 25) = some ("X", (2030, 1, 1), (25, 30, 0)) ∧
    countdownBranch stdEnv [] (mkMsg "!countdown \"X\" 2030-01-01 30:00") =
      mkReply [] ("Usage: `!countdown \"Event Name\" YYYY-MM-DD [HH:MM:SS]`") :=
  ⟨timeHour_amended.1 ⟨25, by omega⟩,
   timeHour_amended.2 [] "!countdown \"X\" 2030-01-01 30:00" (by rfl)⟩

/-! ## C6: delete-command validation, authorization and effect

`parseInt(args[0], 10)` takes the longest leading digit run and ignores
trailing garbage, so an argument such as `1x` is treated as the number 1
rather than as a validation failure. -/
/-- Counterexample to C6 as stated: `!delcountdown 1x` has a non-numeric
index argument, yet the record is deleted (with the confirmation reply,
not a validation reply) when sent by its creator. -/
theorem delNonNumeric_counterexample :
    (handleMessage stdEnv [sampleCd] (mkMsg "!delcountdown 1x")).store = [] ∧
    (handleMessage stdEnv [sampleCd] (mkMsg "!delcountdown 1x")).replies =
      ["Countdown \"A\" has been deleted."] := by
  constructor <;> rfl

/-- C6 amended: an index argument is read by `parseInt` (longest leading
digit run, trailing garbage ignored); an argument with no leading number
at all, or whose number is outside [1, length], is a validation failure
with the store unchanged and nothing persisted; an in-range request by a
user who is neither the creator nor holder of ManageMessages is an
authorization failure, reported by a reply distinct from the validation
reply, again with no mutation; an in-range request by an authorized user
removes exactly the record at that position and persists the rest. -/
theorem delBranch_amended (st : List Countdown) (a : String)
    (args2 : List String) (m : InboundMessage) :
    ((∀ x : String, (mkReply st x).store = st ∧ (mkReply st x).writes = []) ∧
     "Invalid countdown index." ≠ "You can only delete countdowns that you created.") ∧
    (a ≠ "" → parseIntJs a = none →
      delBranch st (a :: args2) m = mkReply st ("Invalid countdown index.")) ∧
    (∀ n : Int, a ≠ "" → parseIntJs a = some n → (n < 1 ∨ (st.length : Int) < n) →
      delBranch st (a :: args2) m = mkReply st ("Invalid countdown index.")) ∧
    (∀ n : Int, a ≠ "" → parseIntJs a = some n → 1 ≤ n → n ≤ (st.length : Int) →
      (st.getD (n - 1).toNat default).createdBy ≠ m.authorId →
      m.hasManageMessages = false →
      delBranch st (a :: args2) m =
        mkReply st ("You can only delete countdowns that you created.")) ∧
    (∀ n : Int, a ≠ "" → parseIntJs a = some n → 1 ≤ n → n ≤ (st.length : Int) →
      ((st.getD (n - 1).toNat default).createdBy = m.authorId ∨
        m.hasManageMessages = true) →
      (delBranch st (a :: args2) m).store = st.eraseIdx (n - 1).toNat ∧
      (delBranch st (a :: args2) m).writes =
        [saveCountdowns (st.eraseIdx (n - 1).toNat)] ∧
      (delBranch st (a :: args2) m).replies =
        ["Countdown \"" ++ (st.getD (n - 1).toNat default).name ++
          "\" has been deleted."]) := by
  refine ⟨⟨fun x => ⟨rfl, rfl⟩, by decide⟩, ?_, ?_, ?_, ?_⟩
  · intro ha hnone
    simp only [delBranch]
    rw [if_neg ha, hnone]
  · intro n ha hsome hrange
    simp only [delBranch]
    rw [if_neg ha, hsome]
    dsimp only
    rw [if_pos (show n - 1 < 0 ∨ (st.length : Int) ≤ n - 1 by omega)]
  · intro n ha hsome h1 h2 hcr hmg
    simp only [delBranch]
    rw [if_neg ha, hsome]
    dsimp only
    rw [if_neg (show ¬ (n - 1 < 0 ∨ (st.length : Int) ≤ n - 1) by omega),
      if_pos (And.intro hcr hmg)]
  · intro n ha hsome h1 h2 hauth
    have hna : ¬ ((st.getD (n - 1).toNat default).createdBy ≠ m.authorId ∧
        m.hasManageMessages = false) := by
      intro hp
      rcases hauth with h | h
      · exact hp.1 h
      · rw [h] at hp
        cases hp.2
    simp only [delBranch]
    rw [if_neg ha, hsome]
    dsimp only
    rw [if_neg (show ¬ (n - 1 < 0 ∨ (st.length : Int) ≤ n - 1) by omega),
      if_neg hna]
    exact ⟨rfl, rfl, rfl⟩

/-- Witness for C6 amended: `abc` (no leading number) is a validation
failure, and an in-range delete by a non-creator without ManageMessages
is an authorization failure. -/
theorem delBranch_amended_witness :
    delBranch [sampleCd] ["abc"] (mkMsg "!delcountdown abc") =
      mkReply [sampleCd] ("Invalid countdown index.") ∧
    delBranch [{ sampleCd with createdBy := "u2" }] ["1"] (mkMsg "!delcountdown 1") =
      mkReply [{ sampleCd with createdBy := "u2" }]
        ("You can only delete countdowns that you created.") :=
  ⟨(delBranch_amended [sampleCd] "abc" [] (mkMsg "!delcountdown abc")).2.1
      (by decide) (by rfl),
   (delBranch_amended [{ sampleCd with createdBy := "u2" }] "1" []
      (mkMsg "!delcountdown 1")).2.2.2.1 1 (by decide) (by rfl) (by decide)
      (by decide) (by decide) (by rfl)⟩

/-! ## C8: load never crashes startup -/
/-- C8: `loadCountdowns` is total (it is a function; nothing can throw
past its try/catch): a missing file leaves the store at the initial empty
collection, and file content that `JSON.parse` rejects falls back (after
the logged error, which is outside this pure model) to the empty
collection. -/
theorem loadCountdowns_total :
    loadCountdowns none = Json.arr [] ∧
    (∀ s : String, parseJson s = none → loadCountdowns (some s) = Json.arr []) := by
  refine ⟨rfl, ?_⟩
  intro s h
  simp [loadCountdowns, h]

/-- Witness for C8: the malformed content `"oops"` falls back to the
empty collection. -/
theorem loadCountdowns_total_witness :
    loadCountdowns (some ("oops")) = Json.arr [] :=
  loadCountdowns_total.2 "oops" (by rfl)

/-! ## Round-trip lemmas for the persisted file (towards C5) -/
theorem strMk_data (s : String) : String.mk s.data = s := by
  cases s
  rfl

theorem digitChar_facts (d : Nat) (h : d < 10) :
    (digitChar d).isDigit = true ∧ (digitChar d).toNat = 48 + d ∧
    digitChar d ≠ '-' := by
  interval_cases d <;> exact ⟨rfl, rfl, by decide⟩

theorem hexVal_hexDigitChar (d : Nat) (h : d < 16) :
    hexVal (hexDigitChar d) = some d := by
  interval_cases d <;> rfl

theorem digitsVal_append_one (xs : List Char) (c : Char) :
    digitsVal (xs ++ [c]) = 10 * digitsVal xs + (c.toNat - 48) := by
  unfold digitsVal
  rw [List.foldl_append]
  rfl

theorem natDigits_facts (n : Nat) :
    (∀ c ∈ natDigits n, c.isDigit = true) ∧ digitsVal (natDigits n) = n ∧
    natDigits n ≠ [] := by
  induction n using Nat.strong_induction_on with
  | _ n ih =>
    by_cases h : n < 10
    · rw [natDigits, if_pos h]
      refine ⟨?_, ?_, by simp⟩
      · intro c hc
        rw [List.mem_singleton] at hc
        exact hc ▸ (digitChar_facts n h).1
      · show digitsVal [digitChar n] = n
        unfold digitsVal
        simp [List.foldl, (digitChar_facts n h).2.1]
    · rw [natDigits, if_neg h]
      have hlt : n / 10 < n := Nat.div_lt_self (by omega) (by omega)
      obtain ⟨ihd, ihv, ihne⟩ := ih (n / 10) hlt
      have hm : n % 10 < 10 := Nat.mod_lt n (by omega)
      refine ⟨?_, ?_, by simp⟩
      · intro c hc
        rw [List.mem_append, List.mem_singleton] at hc
        rcases hc with hc | hc
        · exact ihd c hc
        · exact hc ▸ (digitChar_facts (n % 10) hm).1
      · rw [digitsVal_append_one, ihv, (digitChar_facts (n % 10) hm).2.1]
        omega

theorem takeWhile_append_all (p : Char → Bool) (xs r : List Char)
    (hxs : ∀ c ∈ xs, p c = true) (hr : headFails p r) :
    (xs ++ r).takeWhile p = xs := by
  induction xs with
  | nil =>
    cases r with
    | nil => rfl
    | cons c cs =>
      simp only [List.nil_append, List.takeWhile]
      rw [show p c = false from hr]
  | cons x xs ihx =>
    simp only [List.cons_append, List.takeWhile]
    rw [hxs x (by simp)]
    simp only [List.append_eq]
    rw [ihx (fun c hc => hxs c (by simp [hc]))]

theorem numChars_all_digit_of_nonneg (i : Int) (h : ¬ i < 0) :
    numChars i = natDigits i.natAbs := by
  unfold numChars
  rw [if_neg h]

theorem parseNumTok_numChars (i : Int) (r : List Char)
    (hr : headFails Char.isDigit r) :
    parseNumTok (numChars i ++ r) = some (i, r) := by
  obtain ⟨hdig, hval, hne⟩ := natDigits_facts i.natAbs
  by_cases hneg : i < 0
  · rw [show numChars i = '-' :: natDigits i.natAbs from by rw [numChars, if_pos hneg]]
    rw [List.cons_append]
    show parseNumTok ('-' :: (natDigits i.natAbs ++ r)) = some (i, r)
    rw [parseNumTok]
    rw [takeWhile_append_all Char.isDigit _ r hdig hr]
    rw [if_neg hne]
    rw [hval, List.drop_left]
    have : -(i.natAbs : Int) = i := by omega
    rw [this]
  · rw [numChars_all_digit_of_nonneg i hneg]
    rcases hd : natDigits i.natAbs with _ | ⟨c, cs⟩
    · exact absurd hd hne
    · have hcd : c.isDigit = true := hdig c (by rw [hd]; simp)
      have hcm : c ≠ '-' := by
        intro hcc
        rw [hcc] at hcd
        cases hcd
      rw [List.cons_append]
      rw [show parseNumTok (c :: (cs ++ r)) =
          (let ds := (c :: (cs ++ r)).takeWhile Char.isDigit
           if ds = [] then none
           else some ((digitsVal ds : Int), (c :: (cs ++ r)).drop ds.length)) from by
        rw [parseNumTok.eq_def]
        cases hc2 : c :: (cs ++ r) with
        | nil => cases hc2
        | cons a as =>
          rw [List.cons.injEq] at hc2
          obtain ⟨ha, has⟩ := hc2
          subst ha
          subst has
          split
          · rename_i heq
            rw [List.cons.injEq] at heq
            exact absurd heq.1 hcm
          · rfl]
      show (if (c :: (cs ++ r)).takeWhile Char.isDigit = [] then none
        else some ((digitsVal ((c :: (cs ++ r)).takeWhile Char.isDigit) : Int),
          (c :: (cs ++ r)).drop ((c :: (cs ++ r)).takeWhile Char.isDigit).length)) =
        some (i, r)
      rw [show (c :: (cs ++ r)) = (c :: cs) ++ r from rfl]
      rw [takeWhile_append_all Char.isDigit (c :: cs) r (hd ▸ hdig) hr]
      rw [if_neg (by simp)]
      rw [List.drop_left, ← hd, hval]
      have : (i.natAbs : Int) = i := by omega
      rw [this]

theorem parseStrBody_quote (r : List Char) :
    parseStrBody ('"' :: r) = some ([], r) := by
  rw [parseStrBody.eq_def]
  simp

theorem parseStrBody_escQuote (r : List Char) :
    parseStrBody ('\\' :: '"' :: r) = consRes '"' (parseStrBody r) := by
  rw [parseStrBody.eq_def]
  simp

theorem parseStrBody_escBack (r : List Char) :
    parseStrBody ('\\' :: '\\' :: r) = consRes '\\' (parseStrBody r) := by
  rw [parseStrBody.eq_def]
  simp

theorem parseStrBody_escB (r : List Char) :
    parseStrBody ('\\' :: 'b' :: r) = consRes '\x08' (parseStrBody r) := by
  rw [parseStrBody.eq_def]
  simp

theorem parseStrBody_escT (r : List Char) :
    parseStrBody ('\\' :: 't' :: r) = consRes '\x09' (parseStrBody r) := by
  rw [parseStrBody.eq_def]
  simp

theorem parseStrBody_escN (r : List Char) :
    parseStrBody ('\\' :: 'n' :: r) = consRes '\x0a' (parseStrBody r) := by
  rw [parseStrBody.eq_def]
  simp

theorem parseStrBody_escF (r : List Char) :
    parseStrBody ('\\' :: 'f' :: r) = consRes '\x0c' (parseStrBody r) := by
  rw [parseStrBody.eq_def]
  simp

theorem parseStrBody_escR (r : List Char) :
    parseStrBody ('\\' :: 'r' :: r) = consRes '\x0d' (parseStrBody r) := by
  rw [parseStrBody.eq_def]
  simp

theorem parseStrBody_escU (a b c d : Char) (r : List Char) :
    parseStrBody ('\\' :: 'u' :: a :: b :: c :: d :: r) =
      (match hexVal a, hexVal b, hexVal c, hexVal d with
       | some x1, some x2, some x3, some x4 =>
         consRes (Char.ofNat (x1 * 4096 + x2 * 256 + x3 * 16 + x4)) (parseStrBody r)
       | _, _, _, _ => none) := by
  rw [parseStrBody.eq_def]
  simp

theorem parseStrBody_lit (c : Char) (r : List Char) (h1 : c ≠ '"')
    (h2 : c ≠ '\\') :
    parseStrBody (c :: r) = consRes c (parseStrBody r) := by
  rw [parseStrBody.eq_def]
  simp [h1, h2]

theorem parseStrBody_esc (l r : List Char) :
    parseStrBody (escString l ++ ('"' :: r)) = some (l, r) := by
  induction l with
  | nil =>
    rw [escString, List.nil_append, parseStrBody_quote]
  | cons c l2 ih =>
    rw [escString, List.append_assoc]
    by_cases h1 : c = '"'
    · subst h1
      rw [show escChar '"' = ['\\', '"'] from rfl]
      rw [show (['\\', '"'] : List Char) ++ (escString l2 ++ '"' :: r) =
        '\\' :: '"' :: (escString l2 ++ '"' :: r) from rfl]
      rw [parseStrBody_escQuote, ih]
      rfl
    · by_cases h2 : c = '\\'
      · subst h2
        rw [show escChar '\\' = ['\\', '\\'] from rfl]
        rw [show (['\\', '\\'] : List Char) ++ (escString l2 ++ '"' :: r) =
          '\\' :: '\\' :: (escString l2 ++ '"' :: r) from rfl]
        rw [parseStrBody_escBack, ih]
        rfl
      · by_cases h3 : c = '\x08'
        · subst h3
          rw [show escChar '\x08' = ['\\', 'b'] from rfl]
          rw [show (['\\', 'b'] : List Char) ++ (escString l2 ++ '"' :: r) =
            '\\' :: 'b' :: (escString l2 ++ '"' :: r) from rfl]
          rw [parseStrBody_escB, ih]
          rfl
        · by_cases h4 : c = '\x09'
          · subst h4
            rw [show escChar '\x09' = ['\\', 't'] from rfl]
            rw [show (['\\', 't'] : List Char) ++ (escString l2 ++ '"' :: r) =
              '\\' :: 't' :: (escString l2 ++ '"' :: r) from rfl]
            rw [parseStrBody_escT, ih]
            rfl
          · by_cases h5 : c = '\x0a'
            · subst h5
              rw [show escChar '\x0a' = ['\\', 'n'] from rfl]
              rw [show (['\\', 'n'] : List Char) ++ (escString l2 ++ '"' :: r) =
                '\\' :: 'n' :: (escString l2 ++ '"' :: r) from rfl]
              rw [parseStrBody_escN, ih]
              rfl
            · by_cases h6 : c = '\x0c'
              · subst h6
                rw [show escChar '\x0c' = ['\\', 'f'] from rfl]
                rw [show (['\\', 'f'] : List Char) ++ (escString l2 ++ '"' :: r) =
                  '\\' :: 'f' :: (escString l2 ++ '"' :: r) from rfl]
                rw [parseStrBody_escF, ih]
                rfl
              · by_cases h7 : c = '\x0d'
                · subst h7
                  rw [show escChar '\x0d' = ['\\', 'r'] from rfl]
                  rw [show (['\\', 'r'] : List Char) ++ (escString l2 ++ '"' :: r) =
                    '\\' :: 'r' :: (escString l2 ++ '"' :: r) from rfl]
                  rw [parseStrBody_escR, ih]
                  rfl
                · by_cases h8 : c.toNat < 32
                  · rw [show escChar c =
                        ['\\', 'u', '0', '0', hexDigitChar (c.toNat / 16),
                         hexDigitChar (c.toNat % 16)] from by
                      rw [escChar]
                      rw [if_neg h1, if_neg h2, if_neg h3, if_neg h4, if_neg h5,
                        if_neg h6, if_neg h7, if_pos h8]]
                    rw [show (['\\', 'u', '0', '0', hexDigitChar (c.toNat / 16),
                        hexDigitChar (c.toNat % 16)] : List Char) ++
                        (escString l2 ++ '"' :: r) =
                      '\\' :: 'u' :: '0' :: '0' :: hexDigitChar (c.toNat / 16) ::
                        hexDigitChar (c.toNat % 16) ::
                        (escString l2 ++ '"' :: r) from rfl]
                    rw [parseStrBody_escU]
                    rw [show hexVal '0' = some 0 from rfl]
                    rw [hexVal_hexDigitChar (c.toNat / 16) (by omega)]
                    rw [hexVal_hexDigitChar (c.toNat % 16) (by omega)]
                    show consRes (Char.ofNat (0 * 4096 + 0 * 256 +
                      (c.toNat / 16) * 16 + c.toNat % 16))
                      (parseStrBody (escString l2 ++ '"' :: r)) = some (c :: l2, r)
                    rw [show 0 * 4096 + 0 * 256 + (c.toNat / 16) * 16 +
                      c.toNat % 16 = c.toNat from by omega]
                    rw [Char.ofNat_toNat, ih]
                    rfl
                  · rw [show escChar c = [c] from by
                      rw [escChar]
                      rw [if_neg h1, if_neg h2, if_neg h3, if_neg h4, if_neg h5,
                        if_neg h6, if_neg h7, if_neg h8]]
                    rw [List.singleton_append]
                    rw [parseStrBody_lit c _ h1 h2, ih]
                    rfl

theorem parseValue_str (f : Nat) (s : String) (r : List Char) :
    parseValue (f + 1) (strLitChars s ++ r) = some (Json.str s, r) := by
  rw [strLitChars, List.cons_append, List.append_assoc, List.singleton_append]
  rw [parseValue.eq_def]
  simp [parseStrBody_esc, strMk_data]

theorem digit_not_special (c : Char) (h : c.isDigit = true) :
    c ≠ 'n' ∧ c ≠ 't' ∧ c ≠ 'f' ∧ c ≠ '"' ∧ c ≠ '[' ∧ c ≠ lbrace := by
  refine ⟨?_, ?_, ?_, ?_, ?_, ?_⟩ <;> intro he <;> rw [he] at h <;> cases h

theorem parseValue_numLit (f : Nat) (i : Int) (r : List Char)
    (hr : headFails Char.isDigit r) :
    parseValue (f + 1) (numChars i ++ r) = some (Json.num i, r) := by
  have hnum := parseNumTok_numChars i r hr
  by_cases hneg : i < 0
  · rw [show numChars i = '-' :: natDigits i.natAbs from by
      rw [numChars, if_pos hneg]] at hnum ⊢
    rw [List.cons_append] at hnum ⊢
    rw [parseValue.eq_def]
    simp only []
    rw [if_neg (by decide), if_neg (by decide), if_neg (by decide),
      if_neg (by decide), if_neg (by decide), if_neg (by decide)]
    rw [hnum]
    rfl
  · obtain ⟨hdig, hval, hne⟩ := natDigits_facts i.natAbs
    rw [numChars_all_digit_of_nonneg i hneg] at hnum ⊢
    rcases hd : natDigits i.natAbs with _ | ⟨c, cs⟩
    · exact absurd hd hne
    · have hcd : c.isDigit = true := hdig c (by rw [hd]; simp)
      obtain ⟨e1, e2, e3, e4, e5, e6⟩ := digit_not_special c hcd
      rw [hd, List.cons_append] at hnum
      rw [parseValue.eq_def]
      simp [e1, e2, e3, e4, e5, e6, hnum]

theorem parseKeyName (r : List Char) :
    parseStrBody ('n' :: 'a' :: 'm' :: 'e' :: '"' :: r) =
      some (['n', 'a', 'm', 'e'], r) := by
  have h := parseStrBody_esc ['n', 'a', 'm', 'e'] r
  rw [show escString ['n', 'a', 'm', 'e'] = ['n', 'a', 'm', 'e'] from rfl] at h
  exact h

theorem parseKeyTargetDate (r : List Char) :
    parseStrBody ('t' :: 'a' :: 'r' :: 'g' :: 'e' :: 't' :: 'D' :: 'a' :: 't' ::
      'e' :: '"' :: r) =
      some (['t', 'a', 'r', 'g', 'e', 't', 'D', 'a', 't', 'e'], r) := by
  have h := parseStrBody_esc ['t', 'a', 'r', 'g', 'e', 't', 'D', 'a', 't', 'e'] r
  rw [show escString ['t', 'a', 'r', 'g', 'e', 't', 'D', 'a', 't', 'e'] =
    ['t', 'a', 'r', 'g', 'e', 't', 'D', 'a', 't', 'e'] from rfl] at h
  exact h

theorem parseKeyChannelId (r : List Char) :
    parseStrBody ('c' :: 'h' :: 'a' :: 'n' :: 'n' :: 'e' :: 'l' :: 'I' :: 'd' ::
      '"' :: r) =
      some (['c', 'h', 'a', 'n', 'n', 'e', 'l', 'I', 'd'], r) := by
  have h := parseStrBody_esc ['c', 'h', 'a', 'n', 'n', 'e', 'l', 'I', 'd'] r
  rw [show escString ['c', 'h', 'a', 'n', 'n', 'e', 'l', 'I', 'd'] =
    ['c', 'h', 'a', 'n', 'n', 'e', 'l', 'I', 'd'] from rfl] at h
  exact h

theorem parseKeyMessageId (r : List Char) :
    parseStrBody ('m' :: 'e' :: 's' :: 's' :: 'a' :: 'g' :: 'e' :: 'I' :: 'd' ::
      '"' :: r) =
      some (['m', 'e', 's', 's', 'a', 'g', 'e', 'I', 'd'], r) := by
  have h := parseStrBody_esc ['m', 'e', 's', 's', 'a', 'g', 'e', 'I', 'd'] r
  rw [show escString ['m', 'e', 's', 's', 'a', 'g', 'e', 'I', 'd'] =
    ['m', 'e', 's', 's', 'a', 'g', 'e', 'I', 'd'] from rfl] at h
  exact h

theorem parseKeyCreatedBy (r : List Char) :
    parseStrBody ('c' :: 'r' :: 'e' :: 'a' :: 't' :: 'e' :: 'd' :: 'B' :: 'y' ::
      '"' :: r) =
      some (['c', 'r', 'e', 'a', 't', 'e', 'd', 'B', 'y'], r) := by
  have h := parseStrBody_esc ['c', 'r', 'e', 'a', 't', 'e', 'd', 'B', 'y'] r
  rw [show escString ['c', 'r', 'e', 'a', 't', 'e', 'd', 'B', 'y'] =
    ['c', 'r', 'e', 'a', 't', 'e', 'd', 'B', 'y'] from rfl] at h
  exact h

theorem parseKeyCreatedAt (r : List Char) :
    parseStrBody ('c' :: 'r' :: 'e' :: 'a' :: 't' :: 'e' :: 'd' :: 'A' :: 't' ::
      '"' :: r) =
      some (['c', 'r', 'e', 'a', 't', 'e', 'd', 'A', 't'], r) := by
  have h := parseStrBody_esc ['c', 'r', 'e', 'a', 't', 'e', 'd', 'A', 't'] r
  rw [show escString ['c', 'r', 'e', 'a', 't', 'e', 'd', 'A', 't'] =
    ['c', 'r', 'e', 'a', 't', 'e', 'd', 'A', 't'] from rfl] at h
  exact h

theorem skipWs_sp (x : List Char) : skipWs (' ' :: x) = skipWs x := by
  rw [skipWs]
  rfl

theorem skipWs_nl (x : List Char) : skipWs ('\n' :: x) = skipWs x := by
  rw [skipWs]
  rfl

theorem skipWs_colon (x : List Char) : skipWs (':' :: x) = ':' :: x := by
  rw [skipWs]
  rfl

theorem skipWs_comma (x : List Char) : skipWs (',' :: x) = ',' :: x := by
  rw [skipWs]
  rfl

theorem skipWs_quote (x : List Char) : skipWs ('"' :: x) = '"' :: x := by
  rw [skipWs]
  rfl

theorem skipWs_rb (x : List Char) : skipWs (rbrace :: x) = rbrace :: x := by
  rw [skipWs]
  rfl

theorem skipWs_lb (x : List Char) : skipWs (lbrace :: x) = lbrace :: x := by
  rw [skipWs]
  rfl

theorem headFails_comma (x : List Char) : headFails Char.isDigit (',' :: x) := rfl

theorem headFails_newline (x : List Char) : headFails Char.isDigit ('\n' :: x) := rfl

theorem parseMembers_cons (f : Nat) (cs2 : List Char) :
    parseMembers (f + 1) ('"' :: cs2) =
      (match parseStrBody cs2 with
      | none => none
      | some (key, r1) =>
        match skipWs r1 with
        | [] => none
        | d :: r2 =>
          if d = ':' then
            match parseValue f (skipWs r2) with
            | none => none
            | some (v, r3) =>
              match skipWs r3 with
              | [] => none
              | e :: r4 =>
                if e = ',' then
                  (parseMembers f (skipWs r4)).map
                    (fun p => ((String.mk key, v) :: p.1, p.2))
                else if e = rbrace then some ([(String.mk key, v)], r4)
                else none
          else none) := by
  rw [parseMembers.eq_def]
  dsimp only
  rw [if_pos (rfl : ('"' : Char) = '"')]

theorem skipWs_membersChars (kv : List Char × List Char)
    (rest : List (List Char × List Char)) (X : List Char) :
    skipWs (membersChars (kv :: rest) ++ X) = membersChars (kv :: rest) ++ X := by
  cases rest with
  | nil =>
    rw [membersChars, keyColon, List.cons_append, List.cons_append, skipWs_quote]
  | cons kv2 rest2 =>
    rw [show membersChars (kv :: kv2 :: rest2) =
      keyColon kv.1 ++ kv.2 ++ fieldSep ++ membersChars (kv2 :: rest2) from rfl]
    rw [keyColon]
    rw [List.append_assoc, List.append_assoc, List.append_assoc, List.cons_append,
      skipWs_quote]

theorem parseMembers_chain (svs : List (List Char × List Char))
    (ms : List (String × Json)) (h : List.Forall₂ MemberOk svs ms) :
    svs ≠ [] → ∀ (f : Nat) (r : List Char),
      parseMembers (f + svs.length + 1)
        (membersChars svs ++ ('\n' :: ' ' :: ' ' :: rbrace :: r)) = some (ms, r) := by
  induction h with
  | nil =>
    intro hne
    exact absurd rfl hne
  | @cons kv m svs2 ms2 hR hF ih =>
    intro _ f r
    obtain ⟨hkey, hmk, hskip, hval⟩ := hR
    cases hF with
    | nil =>
      rw [show ([kv] : List (List Char × List Char)).length = 1 from rfl]
      rw [membersChars, keyColon]
      simp only [List.cons_append, List.append_assoc, List.nil_append]
      rw [parseMembers_cons (f + 1)]
      rw [hkey]
      try dsimp only
      rw [skipWs_colon]
      try dsimp only
      rw [skipWs_sp, hskip]
      rw [hval f _ (headFails_newline _)]
      try dsimp only
      rw [skipWs_nl, skipWs_sp, skipWs_sp, skipWs_rb]
      try dsimp only
      rw [hmk]
      rw [if_pos (rfl : (':' : Char) = ':')]
      rw [if_neg (show ¬ (rbrace = ',') from by decide)]
      rw [if_pos (rfl : rbrace = rbrace)]
    | @cons kv2 m2 svs3 ms3 hR2 hF2 =>
      rw [show ((kv :: kv2 :: svs3 : List (List Char × List Char))).length =
        (kv2 :: svs3 : List (List Char × List Char)).length + 1 from rfl]
      rw [show membersChars (kv :: kv2 :: svs3) =
        keyColon kv.1 ++ kv.2 ++ fieldSep ++ membersChars (kv2 :: svs3) from rfl]
      rw [keyColon, fieldSep]
      simp only [List.cons_append, List.append_assoc, List.nil_append]
      rw [show f + ((kv2 :: svs3 : List (List Char × List Char)).length + 1) + 1 =
        ((f + (kv2 :: svs3 : List (List Char × List Char)).length + 1)) + 1 from by
        omega]
      rw [parseMembers_cons (f + (kv2 :: svs3 : List (List Char × List Char)).length + 1)]
      rw [hkey]
      try dsimp only
      rw [skipWs_colon]
      try dsimp only
      rw [skipWs_sp, hskip]
      rw [hval (f + (kv2 :: svs3 : List (List Char × List Char)).length) _
        (headFails_comma _)]
      try dsimp only
      rw [skipWs_comma]
      try dsimp only
      rw [skipWs_nl, skipWs_sp, skipWs_sp, skipWs_sp, skipWs_sp,
        skipWs_membersChars]
      rw [ih (by simp) f r]
      rw [hmk]
      rw [if_pos (rfl : (':' : Char) = ':')]
      rw [if_pos (rfl : (',' : Char) = ',')]
      rfl

theorem skipWs_stop (c : Char) (r : List Char) (h : isJsonWs c = false) :
    skipWs (c :: r) = c :: r := by
  rw [skipWs, h]
  rfl

theorem isJsonWs_of_digit (c : Char) (h : c.isDigit = true) :
    isJsonWs c = false := by
  have h1 : c ≠ ' ' := fun he => by rw [he] at h; cases h
  have h2 : c ≠ '\n' := fun he => by rw [he] at h; cases h
  have h3 : c ≠ '\t' := fun he => by rw [he] at h; cases h
  have h4 : c ≠ '\x0d' := fun he => by rw [he] at h; cases h
  simp [isJsonWs, h1, h2, h3, h4]

/-- A member whose value is a serialized string literal. -/
theorem memberOk_str (k : List Char) (hk : escString k = k) (s : String) :
    MemberOk (k, strLitChars s) (String.mk k, Json.str s) := by
  refine ⟨?_, rfl, ?_, ?_⟩
  · intro r2
    have h := parseStrBody_esc k r2
    rwa [hk] at h
  · intro X
    show skipWs (strLitChars s ++ X) = strLitChars s ++ X
    rw [strLitChars, List.cons_append, skipWs_quote]
  · intro g r2 _
    exact parseValue_str g s r2

/-- A member whose value is a serialized integer. -/
theorem memberOk_num (k : List Char) (hk : escString k = k) (i : Int) :
    MemberOk (k, numChars i) (String.mk k, Json.num i) := by
  refine ⟨?_, rfl, ?_, ?_⟩
  · intro r2
    have h := parseStrBody_esc k r2
    rwa [hk] at h
  · intro X
    show skipWs (numChars i ++ X) = numChars i ++ X
    by_cases hneg : i < 0
    · rw [show numChars i = '-' :: natDigits i.natAbs from by
        rw [numChars, if_pos hneg]]
      rw [List.cons_append, skipWs_stop '-' _ (by decide)]
    · obtain ⟨hdig, hval2, hne⟩ := natDigits_facts i.natAbs
      rw [numChars_all_digit_of_nonneg i hneg]
      rcases hd : natDigits i.natAbs with _ | ⟨c, cs⟩
      · exact absurd hd hne
      · have hcd : c.isDigit = true := hdig c (by rw [hd]; simp)
        rw [List.cons_append, skipWs_stop c _ (isJsonWs_of_digit c hcd)]
  · intro g r2 hr
    exact parseValue_numLit g i r2 hr

theorem membersChars_cons_eq (kv : List Char × List Char)
    (rest : List (List Char × List Char)) :
    membersChars (kv :: rest) = '"' :: membersTailChars kv rest := by
  cases rest with
  | nil =>
    rw [membersChars, keyColon, membersTailChars, List.cons_append]
  | cons kv2 rest2 =>
    rw [show membersChars (kv :: kv2 :: rest2) =
      keyColon kv.1 ++ kv.2 ++ fieldSep ++ membersChars (kv2 :: rest2) from rfl]
    rw [show membersTailChars kv (kv2 :: rest2) =
      (kv.1 ++ ['"', ':', ' ']) ++ kv.2 ++ fieldSep ++ membersChars (kv2 :: rest2)
      from rfl]
    rw [keyColon, List.cons_append, List.cons_append, List.cons_append]

theorem parseValue_obj (svs : List (List Char × List Char))
    (ms : List (String × Json)) (h : List.Forall₂ MemberOk svs ms)
    (hne : svs ≠ []) (f : Nat) (r : List Char) :
    parseValue (f + svs.length + 2)
      (lbrace :: '\n' :: ' ' :: ' ' :: ' ' :: ' ' ::
        (membersChars svs ++ ('\n' :: ' ' :: ' ' :: rbrace :: r))) =
      some (Json.obj ms, r) := by
  rw [show f + svs.length + 2 = (f + svs.length + 1) + 1 from rfl]
  rw [parseValue.eq_def]
  dsimp only
  rw [if_neg (show ¬ (lbrace = 'n') from by decide),
    if_neg (show ¬ (lbrace = 't') from by decide),
    if_neg (show ¬ (lbrace = 'f') from by decide),
    if_neg (show ¬ (lbrace = '"') from by decide),
    if_neg (show ¬ (lbrace = '[') from by decide),
    if_pos (rfl : lbrace = lbrace)]
  rw [skipWs_nl, skipWs_sp, skipWs_sp, skipWs_sp, skipWs_sp]
  rcases svs with _ | ⟨kv0, rest0⟩
  · exact absurd rfl hne
  · rw [skipWs_membersChars]
    rw [membersChars_cons_eq, List.cons_append]
    dsimp only
    rw [if_neg (show ¬ (('"' : Char) = rbrace) from by decide)]
    rw [← List.cons_append, ← membersChars_cons_eq]
    rw [parseMembers_chain (kv0 :: rest0) ms h (by simp) f r]
    rfl

theorem recordChars_append (cd : Countdown) (r : List Char) :
    recordChars cd ++ r =
      lbrace :: '\n' :: ' ' :: ' ' :: ' ' :: ' ' ::
        (membersChars (recordMembers cd) ++ ('\n' :: ' ' :: ' ' :: rbrace :: r)) := by
  rw [recordChars, objOpen, objClose, recordMembers]
  simp [membersChars, keyColon, fieldSep, List.append_assoc]

theorem recordMembers_ok (cd : Countdown) :
    List.Forall₂ MemberOk (recordMembers cd)
      [("name", Json.str cd.name), ("targetDate", Json.num cd.targetDate),
       ("channelId", Json.str cd.channelId), ("messageId", Json.str cd.messageId),
       ("createdBy", Json.str cd.createdBy), ("createdAt", Json.num cd.createdAt)] := by
  refine List.Forall₂.cons ?_ (List.Forall₂.cons ?_ (List.Forall₂.cons ?_
    (List.Forall₂.cons ?_ (List.Forall₂.cons ?_ (List.Forall₂.cons ?_
      List.Forall₂.nil)))))
  · exact memberOk_str ['n', 'a', 'm', 'e'] rfl cd.name
  · exact memberOk_num ['t', 'a', 'r', 'g', 'e', 't', 'D', 'a', 't', 'e'] rfl
      cd.targetDate
  · exact memberOk_str ['c', 'h', 'a', 'n', 'n', 'e', 'l', 'I', 'd'] rfl cd.channelId
  · exact memberOk_str ['m', 'e', 's', 's', 'a', 'g', 'e', 'I', 'd'] rfl cd.messageId
  · exact memberOk_str ['c', 'r', 'e', 'a', 't', 'e', 'd', 'B', 'y'] rfl cd.createdBy
  · exact memberOk_num ['c', 'r', 'e', 'a', 't', 'e', 'd', 'A', 't'] rfl cd.createdAt

theorem parseValue_record (cd : Countdown) (f : Nat) (r : List Char) :
    parseValue (f + 8) (recordChars cd ++ r) = some (encodeCountdown cd, r) := by
  rw [recordChars_append]
  have h := parseValue_obj (recordMembers cd) _ (recordMembers_ok cd)
    (by simp [recordMembers]) f r
  exact h

theorem parseElems_cons (f : Nat) (cs : List Char) :
    parseElems (f + 1) cs =
      (match parseValue f cs with
      | none => none
      | some (v, r1) =>
        match skipWs r1 with
        | [] => none
        | c :: r2 =>
          if c = ',' then (parseElems f (skipWs r2)).map (fun p => (v :: p.1, p.2))
          else if c = ']' then some ([v], r2)
          else none) := rfl

theorem skipWs_joinRecords (c2 : Countdown) (ls2 : List Countdown) (X : List Char) :
    skipWs (joinItems (recordChars c2 :: ls2.map recordChars) ++ X) =
      joinItems (recordChars c2 :: ls2.map recordChars) ++ X := by
  cases ls2 with
  | nil =>
    rw [show ([] : List Countdown).map recordChars = [] from rfl, joinItems]
    rw [recordChars_append c2 X, skipWs_lb, ← recordChars_append]
  | cons c3 ls3 =>
    rw [show ((c3 :: ls3 : List Countdown)).map recordChars =
      recordChars c3 :: ls3.map recordChars from rfl]
    rw [show joinItems (recordChars c2 :: recordChars c3 :: ls3.map recordChars) =
      recordChars c2 ++ itemSep ++
        joinItems (recordChars c3 :: ls3.map recordChars) from rfl]
    rw [List.append_assoc, List.append_assoc]
    rw [recordChars_append c2 _, skipWs_lb, ← recordChars_append]

theorem parseElems_records (l : List Countdown) :
    l ≠ [] → ∀ (f : Nat) (r : List Char),
      parseElems (f + l.length + 8)
        (joinItems (l.map recordChars) ++ ('\n' :: ']' :: r)) =
        some (l.map encodeCountdown, r) := by
  induction l with
  | nil =>
    intro h
    exact absurd rfl h
  | cons c ls ih =>
    intro _ f r
    cases ls with
    | nil =>
      rw [show ([c] : List Countdown).map recordChars = [recordChars c] from rfl]
      rw [joinItems]
      rw [show f + ([c] : List Countdown).length + 8 = (f + 8) + 1 from rfl]
      rw [parseElems_cons (f + 8)]
      rw [parseValue_record c f _]
      dsimp only
      rw [skipWs_nl, skipWs_stop ']' _ (by decide)]
      simp
    | cons c2 ls2 =>
      rw [show ((c :: c2 :: ls2 : List Countdown)).map recordChars =
        recordChars c :: recordChars c2 :: ls2.map recordChars from rfl]
      rw [show joinItems (recordChars c :: recordChars c2 :: ls2.map recordChars) =
        recordChars c ++ itemSep ++
          joinItems (recordChars c2 :: ls2.map recordChars) from rfl]
      rw [itemSep]
      rw [List.append_assoc, List.append_assoc]
      rw [show ((c :: c2 :: ls2 : List Countdown)).length =
        (c2 :: ls2 : List Countdown).length + 1 from rfl]
      rw [show f + ((c2 :: ls2 : List Countdown).length + 1) + 8 =
        ((f + (c2 :: ls2 : List Countdown).length + 8)) + 1 from by omega]
      rw [parseElems_cons (f + (c2 :: ls2 : List Countdown).length + 8)]
      rw [show ([',', '\n', ' ', ' '] : List Char) ++
        (joinItems (recordChars c2 :: ls2.map recordChars) ++ ('\n' :: ']' :: r)) =
        ',' :: '\n' :: ' ' :: ' ' ::
          (joinItems (recordChars c2 :: ls2.map recordChars) ++ ('\n' :: ']' :: r))
        from rfl]
      rw [parseValue_record c (f + (c2 :: ls2 : List Countdown).length) _]
      dsimp only
      rw [skipWs_comma]
      dsimp only
      rw [if_pos (rfl : (',' : Char) = ',')]
      rw [skipWs_nl, skipWs_sp, skipWs_sp, skipWs_joinRecords]
      have ih2 := ih (by simp) f r
      rw [show List.map recordChars (c2 :: ls2) =
        recordChars c2 :: List.map recordChars ls2 from rfl] at ih2
      rw [ih2]
      rfl

theorem parseElems_records_ge (l : List Countdown) (h : l ≠ []) (F : Nat)
    (hF : l.length + 8 ≤ F) (r : List Char) :
    parseElems F (joinItems (l.map recordChars) ++ ('\n' :: ']' :: r)) =
      some (l.map encodeCountdown, r) := by
  obtain ⟨f, hf⟩ : ∃ f, F = f + l.length + 8 := ⟨F - l.length - 8, by omega⟩
  rw [hf]
  exact parseElems_records l h f r

theorem recordChars_len (cd : Countdown) : 10 ≤ (recordChars cd).length := by
  rw [recordChars]
  simp [objOpen, keyColon, fieldSep, objClose]

theorem joinRecords_len (l : List Countdown) (h : l ≠ []) :
    l.length + 2 ≤ (joinItems (l.map recordChars)).length := by
  induction l with
  | nil => exact absurd rfl h
  | cons c ls ih =>
    cases ls with
    | nil =>
      rw [show ([c] : List Countdown).map recordChars = [recordChars c] from rfl,
        joinItems]
      have := recordChars_len c
      simp
      omega
    | cons c2 ls2 =>
      rw [show ((c :: c2 :: ls2 : List Countdown)).map recordChars =
        recordChars c :: recordChars c2 :: ls2.map recordChars from rfl]
      rw [show joinItems (recordChars c :: recordChars c2 :: ls2.map recordChars) =
        recordChars c ++ itemSep ++
          joinItems (recordChars c2 :: ls2.map recordChars) from rfl]
      have h1 := recordChars_len c
      have h2 := ih (by simp)
      rw [show List.map recordChars (c2 :: ls2) =
        recordChars c2 :: List.map recordChars ls2 from rfl] at h2
      simp [itemSep] at h2 ⊢
      omega

theorem recordChars_append2 (cd : Countdown) (Y : List Char) :
    recordChars cd ++ Y = lbrace :: recordTail cd Y :=
  recordChars_append cd Y

theorem joinRecords_head (c : Countdown) (ls : List Countdown) (X : List Char) :
    joinItems (recordChars c :: List.map recordChars ls) ++ X =
      lbrace :: recordTail c (joinRest ls X) := by
  cases ls with
  | nil =>
    rw [show List.map recordChars ([] : List Countdown) = [] from rfl, joinItems]
    rw [show joinRest [] X = X from rfl]
    exact recordChars_append2 c X
  | cons c2 ls2 =>
    rw [show List.map recordChars (c2 :: ls2) =
      recordChars c2 :: List.map recordChars ls2 from rfl]
    rw [show joinItems (recordChars c :: recordChars c2 :: List.map recordChars ls2) =
      recordChars c ++ itemSep ++
        joinItems (recordChars c2 :: List.map recordChars ls2) from rfl]
    rw [List.append_assoc, List.append_assoc]
    rw [recordChars_append2]
    rw [show joinRest (c2 :: ls2) X =
      itemSep ++ (joinItems ((c2 :: ls2).map recordChars) ++ X) from rfl]
    rw [show List.map recordChars (c2 :: ls2) =
      recordChars c2 :: List.map recordChars ls2 from rfl]

theorem parseJson_save (l : List Countdown) :
    parseJson (saveCountdowns l) = some (Json.arr (l.map encodeCountdown)) := by
  cases l with
  | nil => rfl
  | cons c ls =>
    rw [parseJson]
    rw [show (saveCountdowns (c :: ls)).data = saveChars (c :: ls) from rfl]
    rw [show saveChars (c :: ls) =
      '[' :: '\n' :: ' ' :: ' ' ::
        (joinItems ((c :: ls).map recordChars) ++
          ('\n' :: ']' :: ([] : List Char))) from rfl]
    rw [skipWs_stop '[' _ (by decide)]
    rw [show (2 * ('[' :: '\n' :: ' ' :: ' ' ::
        (joinItems ((c :: ls).map recordChars) ++
          ('\n' :: ']' :: ([] : List Char)))).length + 2) =
      (2 * ('[' :: '\n' :: ' ' :: ' ' ::
        (joinItems ((c :: ls).map recordChars) ++
          ('\n' :: ']' :: ([] : List Char)))).length + 1) + 1 from rfl]
    rw [parseValue.eq_def]
    dsimp only
    rw [if_neg (show ¬ (('[' : Char) = 'n') from by decide),
      if_neg (show ¬ (('[' : Char) = 't') from by decide),
      if_neg (show ¬ (('[' : Char) = 'f') from by decide),
      if_neg (show ¬ (('[' : Char) = '"') from by decide),
      if_pos (rfl : ('[' : Char) = '[')]
    rw [skipWs_nl, skipWs_sp, skipWs_sp]
    rw [show ((c :: ls : List Countdown)).map recordChars =
      recordChars c :: ls.map recordChars from rfl]
    rw [skipWs_joinRecords]
    rw [joinRecords_head]
    try dsimp only
    rw [if_neg (show ¬ (lbrace = ']') from by decide)]
    rw [← joinRecords_head]
    rw [show (joinItems (recordChars c :: List.map recordChars ls) ++
        ('\n' :: ']' :: ([] : List Char))) =
      (joinItems ((c :: ls : List Countdown).map recordChars) ++
        ('\n' :: ']' :: ([] : List Char))) from rfl]
    rw [parseElems_records_ge (c :: ls) (by simp) _ ?_ []]
    · try dsimp only
      simp [show skipWs ([] : List Char) = [] from rfl]
    · have hb := joinRecords_len (c :: ls) (by simp)
      simp only [List.length_cons, List.length_append]
      simp only [List.length_cons] at hb
      omega

theorem decodeCountdown_enc (c : Countdown) :
    decodeCountdown (encodeCountdown c) = some c := rfl

theorem decodeList_enc (l : List Countdown) :
    decodeList (l.map encodeCountdown) = some l := by
  induction l with
  | nil => rfl
  | cons c ls ih =>
    rw [show List.map encodeCountdown (c :: ls) =
      encodeCountdown c :: List.map encodeCountdown ls from rfl]
    rw [decodeList, decodeCountdown_enc, ih]

/-! ## C5: the persistence round trip -/
/-- C5: `save()` followed by `load()` in a fresh instance yields exactly
the serialized array back (the store variable receives the parsed JSON
array unchanged), and reading its six fields per record recovers a
collection equal field-for-field to the one that was saved. -/
theorem saveLoad_roundTrip (l : List Countdown) :
    loadCountdowns (some (saveCountdowns l)) = Json.arr (l.map encodeCountdown) ∧
    decodeCountdowns (loadCountdowns (some (saveCountdowns l))) = some l := by
  have h := parseJson_save l
  have h2 : loadCountdowns (some (saveCountdowns l)) =
      Json.arr (l.map encodeCountdown) := by
    rw [loadCountdowns, h]
  refine ⟨h2, ?_⟩
  rw [h2]
  show decodeList (l.map encodeCountdown) = some l
  exact decodeList_enc l
